import Mathlib

/-!
Shallow embedding of the continuous-insights analysis pipeline of the
LifeTrackerFrontend repository (src/utils/continuous/: basis.ts, features.ts,
observationWindows.ts, coverageAnalysis.ts, ppglm.ts, fit.ts, summarize.ts,
diagnostics.ts, insights.worker.ts), together with proofs settling the
frozen claims about it.

Modelling conventions:
- JavaScript numbers are modelled as exact arithmetic: quantities that the
  source manipulates with field operations and comparisons only (times in
  milliseconds, hour values, day counts, event counts) are modelled as ℤ/ℚ;
  quantities that pass through transcendental functions (Math.exp, Math.log,
  Math.sin, Math.atan2) are modelled as ℝ.
- `Array.prototype.sort(cmp)` is modelled by `jsSortBy le` (a stable
  insertion sort; by the ECMAScript specification sort is stable and
  consistent with the comparator, so any stable sort is a faithful model).
- `Map` objects are modelled by lookup functions or association lists.
- A parsed `Date` value (`new Date(s).getTime()`) is modelled as
  `Option ℤ`: `none` models an invalid date (NaN), `some ms` a finite
  integral millisecond timestamp.  `toISOString().slice(0, 10)` (the UTC
  day key) is modelled by the UTC day number `Int.fdiv ms 86400000`,
  which identifies UTC calendar days exactly as the day-key string does.
- The sentinel `-Infinity` stored in `RecursiveState.lastTimeHours` is
  modelled by `Option ℚ` (`none` = non-finite).
- Side effects (postMessage progress events, console logging, cooperative
  yields) are dropped; `runAnalysis` returns the payload of the single
  result message it posts.
-/

set_option maxHeartbeats 1600000
set_option maxRecDepth 100000

namespace LifeTracker

/-! ## Models of JavaScript built-ins -/

/-- Stable insertion of `x` into `acc`, placing `x` after every element `y`
with `le y x` (so elements that compare equal keep their original order,
as guaranteed for `Array.prototype.sort`). -/
def jsInsert {α : Type} (le : α → α → Bool) (x : α) : List α → List α
  | [] => [x]
  | y :: ys => if le y x then y :: jsInsert le x ys else x :: y :: ys

/-- Model of `Array.prototype.sort(cmp)` where `le a b` means
`cmp(a, b) ≤ 0`: a stable sort consistent with the comparator. -/
def jsSortBy {α : Type} (le : α → α → Bool) (l : List α) : List α :=
  l.foldl (fun acc x => jsInsert le x acc) []

/-- Truncation toward zero, the behaviour of JavaScript integer coercion. -/
noncomputable def jsTrunc (x : ℝ) : ℤ :=
  if x < 0 then ⌈x⌉ else ⌊x⌋

/-- Model of the JavaScript remainder operator `a % b` on real operands:
`a - b * trunc(a / b)` (the result has the sign of the dividend). -/
noncomputable def jsRem (a b : ℝ) : ℝ :=
  a - b * jsTrunc (a / b)

/-- Model of `Math.round`: round half toward positive infinity. -/
noncomputable def jsRound (x : ℝ) : ℝ :=
  (⌊x + 1/2⌋ : ℤ)

/-- Model of `Math.atan2 (y, x)`. -/
noncomputable def jsAtan2 (y x : ℝ) : ℝ :=
  if 0 < x then Real.arctan (y / x)
  else if x < 0 then
    (if 0 ≤ y then Real.arctan (y / x) + Real.pi else Real.arctan (y / x) - Real.pi)
  else
    (if 0 < y then Real.pi / 2 else if y < 0 then -(Real.pi / 2) else 0)

/-! ## basis.ts -/

/-- Milliseconds per hour (`MS_PER_HOUR`). -/
def MS_PER_HOUR : ℚ := 3600000

/-- The fixed family of exponential time scales (`ExponentialBasis`). -/
structure ExponentialBasis where
  taus : List ℚ
  labels : List String

/-- Source `createExponentialBasis`. -/
def createExponentialBasis : ExponentialBasis :=
  { taus := [5/60, 15/60, 1, 4, 12, 24, 3*24, 7*24, 21*24]
    labels := ["5m", "15m", "1h", "4h", "12h", "1d", "3d", "7d", "21d"] }

/-- Source `exponentialKernel`: `exp (-lag/tau)` for positive lag, else 0. -/
noncomputable def exponentialKernel (tauHours : ℚ) (lagHours : ℝ) : ℝ :=
  if lagHours ≤ 0 then 0 else Real.exp (-lagHours / (tauHours : ℝ))

/-- Source `decayFactor`. -/
noncomputable def decayFactor (dtHours tauHours : ℚ) : ℝ :=
  Real.exp (-((dtHours : ℝ)) / (tauHours : ℝ))

/-- Source `RecursiveState`; `lastTimeHours = none` models the non-finite
initial value `-Infinity`. -/
structure RecursiveState where
  S : List (List ℝ)
  lastTimeHours : Option ℚ

/-- Source `initRecursiveState`. -/
def initRecursiveState (numTypes numBases : ℕ) : RecursiveState :=
  { S := List.replicate numTypes (List.replicate numBases 0)
    lastTimeHours := none }

/-- Source `advanceStateDecayOnly`: decays every component when the elapsed
time is positive and the previous time is finite, and unconditionally
records the new time. -/
noncomputable def advanceStateDecayOnly (state : RecursiveState) (taus : List ℚ)
    (newTimeHours : ℚ) : RecursiveState :=
  match state.lastTimeHours with
  | none => { state with lastTimeHours := some newTimeHours }
  | some t0 =>
      if t0 < newTimeHours then
        { S := state.S.map fun row =>
            row.mapIdx fun b x =>
              if hb : b < taus.length then
                x * decayFactor (newTimeHours - t0) (taus.get ⟨b, hb⟩)
              else x
          lastTimeHours := some newTimeHours }
      else { state with lastTimeHours := some newTimeHours }

/-- Source `incrementState`: adds `count` to every basis component of the
given source type row (no-op for an out-of-range type index). -/
def incrementState (state : RecursiveState) (eventType : ℕ) (count : ℝ) :
    RecursiveState :=
  if h : eventType < state.S.length then
    { state with
        S := state.S.set eventType ((state.S.get ⟨eventType, h⟩).map (· + count)) }
  else state

/-- Source `cloneState` (value copy; the identity in a pure model). -/
def cloneState (state : RecursiveState) : RecursiveState := state

/-- Component `S[s][b]` of a recursive state (with `getD` defaults, as in
the list embedding). -/
def stateEntry (st : RecursiveState) (s b : ℕ) : ℝ :=
  (st.S.getD s []).getD b 0

/-- Processing a time-ordered event list `(time, type)` exactly as the
likelihood and diagnostic passes do: advance the recursive state to each
event time (decay only) and increment the event's source type. -/
noncomputable def processEvents (taus : List ℚ) (events : List (ℚ × ℕ))
    (st : RecursiveState) : RecursiveState :=
  events.foldl
    (fun s e => incrementState (advanceStateDecayOnly s taus e.1) e.2 1) st

/-- The naive superposition sum that `RecursiveState` maintains
recursively: `Σ_{events e of type s} exp (-(t2 - t_e) / tau)`. -/
noncomputable def naiveStateSum (events : List (ℚ × ℕ)) (s : ℕ) (tau : ℚ)
    (t2 : ℚ) : ℝ :=
  ((events.filter fun e => e.2 == s).map
    (fun e => Real.exp (-(((t2 - e.1 : ℚ)) : ℝ) / (tau : ℝ)))).sum

/-- Source `getHistoryFeatures`. -/
def getHistoryFeatures (state : RecursiveState) (sourceType : ℕ) : List ℝ :=
  state.S.getD sourceType []

/-- Source `evaluateInfluenceCurve`:
`g(lag) = Σ_b theta[b] * kernel(taus[b], lag)`. -/
noncomputable def evaluateInfluenceCurve (theta : List ℝ) (taus : List ℚ)
    (lagHours : ℝ) : ℝ :=
  ∑ b ∈ Finset.range taus.length,
    theta.getD b 0 * exponentialKernel (taus.getD b 0) lagHours

/-- One candidate lag of the logarithmic `findPeakLag` grid. -/
noncomputable def peakGridLag (maxLagHours : ℚ) (resolution i : ℕ) : ℝ :=
  let minLagHours : ℚ := 5/60
  (minLagHours : ℝ) *
    ((maxLagHours : ℝ) / (minLagHours : ℝ)) ^ ((i : ℝ) / (max 1 (resolution - 1) : ℕ))

/-- Source `findPeakLag`: sweeps the 200-point logarithmic grid from 5/60 h
to `maxLagHours`, keeping the lag maximising `|g|`; returns
`(peakLagMs, g(peakLag))`. -/
noncomputable def findPeakLag (theta : List ℝ) (taus : List ℚ)
    (maxLagHours : ℚ) (resolution : ℕ) : ℝ × ℝ :=
  let minLagHours : ℚ := 5/60
  let peakValue0 := evaluateInfluenceCurve theta taus (minLagHours : ℝ)
  let r := (List.range resolution).foldl
    (fun (acc : ℝ × ℝ × ℝ) i =>
      let lagHours := peakGridLag maxLagHours resolution i
      let g := evaluateInfluenceCurve theta taus lagHours
      if acc.2.2 < |g| then (lagHours, g, |g|) else acc)
    ((minLagHours : ℝ), peakValue0, |peakValue0|)
  (r.1 * (MS_PER_HOUR : ℝ), r.2.1)

/-- Source `integratedEffect`: the closed-form integral
`Σ_b theta[b] * taus[b] * (1 - exp (-maxLag/taus[b]))`. -/
noncomputable def integratedEffect (theta : List ℝ) (taus : List ℚ)
    (maxLagHours : ℚ) : ℝ :=
  ∑ b ∈ Finset.range taus.length,
    theta.getD b 0 * (taus.getD b 0 : ℝ) *
      (1 - Real.exp (-(maxLagHours : ℝ) / (taus.getD b 0 : ℝ)))

/-- One candidate lag of the logarithmic `findMassTime` grid. -/
noncomputable def massGridLag (maxLagHours : ℚ) (resolution i : ℕ) : ℝ :=
  let minLagHours : ℚ := 1/60
  (minLagHours : ℝ) *
    ((maxLagHours : ℝ) / (minLagHours : ℝ)) ^ ((i : ℝ) / (max 1 (resolution - 1) : ℕ))

/-- The cumulative-mass contribution of grid point `i` in `findMassTime`:
`|g(lag_i)| * (lag_{i+1} - lag_i)`. -/
noncomputable def massContrib (theta : List ℝ) (taus : List ℚ)
    (maxLagHours : ℚ) (resolution i : ℕ) : ℝ :=
  |evaluateInfluenceCurve theta taus (massGridLag maxLagHours resolution i)| *
    (massGridLag maxLagHours resolution (i + 1) - massGridLag maxLagHours resolution i)

/-- The early-return accumulation loop of `findMassTime`, over the list of
remaining grid indices. -/
noncomputable def findMassTimeLoop (contrib : ℕ → ℝ) (lagOf : ℕ → ℝ)
    (targetIntegral : ℝ) : List ℕ → ℝ → Option ℝ
  | [], _ => none
  | i :: rest, cumulative =>
      let cumulative' := cumulative + contrib i
      if targetIntegral ≤ cumulative' then some (lagOf i)
      else findMassTimeLoop contrib lagOf targetIntegral rest cumulative'

/-- Source `findMassTime`: returns `(0, 0)` when `|totalIntegral| < 1e-10`,
otherwise scans the 500-point logarithmic grid from 1/60 h for the first
lag whose cumulative absolute mass reaches `fraction * |totalIntegral|`
(falling back to `maxLagHours` if never reached). -/
noncomputable def findMassTime (theta : List ℝ) (taus : List ℚ)
    (fraction : ℝ) (maxLagHours : ℚ) (resolution : ℕ) : ℝ × ℝ :=
  let totalIntegral := integratedEffect theta taus maxLagHours
  if |totalIntegral| < 1e-10 then (0, 0)
  else
    let targetIntegral := |totalIntegral| * fraction
    match findMassTimeLoop (massContrib theta taus maxLagHours resolution)
        (massGridLag maxLagHours resolution) targetIntegral
        (List.range resolution) 0 with
    | some lagHours => (lagHours * (MS_PER_HOUR : ℝ), totalIntegral)
    | none => ((maxLagHours : ℝ) * (MS_PER_HOUR : ℝ), totalIntegral)

/-- Source `integrateExponentialBasis`. -/
noncomputable def integrateExponentialBasis (tauHours dtHours : ℚ)
    (state0 : ℝ) : ℝ :=
  if dtHours ≤ 0 then 0
  else state0 * (tauHours : ℝ) * (1 - Real.exp (-(dtHours : ℝ) / (tauHours : ℝ)))

/-! ## features.ts -/

/-- Source `NUM_BASELINE_FEATURES`. -/
def NUM_BASELINE_FEATURES : ℕ := 7

/-- The UTC hour-of-day with minute fraction of a millisecond timestamp,
as computed from `getUTCHours()` and `getUTCMinutes()`. -/
def hourOfDayUTC (timeMs : ℚ) : ℚ :=
  let ms : ℤ := ⌊timeMs⌋
  ((Int.fdiv ms 3600000).emod 24 : ℚ) + ((Int.fdiv ms 60000).emod 60 : ℚ) / 60

/-- The UTC day of week (`getUTCDay()`, 0 = Sunday) of a millisecond
timestamp; day 0 of the epoch was a Thursday (= 4). -/
def dayOfWeekUTC (timeMs : ℚ) : ℤ :=
  (Int.fdiv ⌊timeMs⌋ 86400000 + 4).emod 7

/-- Source `computeBaselineFeatures`. -/
structure BaselineFeatures where
  hourSin : ℝ
  hourCos : ℝ
  hour2Sin : ℝ
  hour2Cos : ℝ
  dowSin : ℝ
  dowCos : ℝ

/-- Source `computeBaselineFeatures`: sinusoidal features of the UTC
hour-of-day and day-of-week. -/
noncomputable def computeBaselineFeatures (timeMs : ℚ) : BaselineFeatures :=
  let hourOfDay := hourOfDayUTC timeMs
  let dayOfWeek := dayOfWeekUTC timeMs
  let hourRadians : ℝ := 2 * Real.pi * (hourOfDay : ℝ) / 24
  let hour2Radians : ℝ := 4 * Real.pi * (hourOfDay : ℝ) / 24
  let dowRadians : ℝ := 2 * Real.pi * (dayOfWeek : ℝ) / 7
  { hourSin := Real.sin hourRadians
    hourCos := Real.cos hourRadians
    hour2Sin := Real.sin hour2Radians
    hour2Cos := Real.cos hour2Radians
    dowSin := Real.sin dowRadians
    dowCos := Real.cos dowRadians }

/-- Source `baselineFeatureVector`: the 7-dimensional baseline feature
vector `[1, hourSin, hourCos, hour2Sin, hour2Cos, dowSin, dowCos]`. -/
noncomputable def baselineFeatureVector (timeMs : ℚ) : List ℝ :=
  let f := computeBaselineFeatures timeMs
  [1, f.hourSin, f.hourCos, f.hour2Sin, f.hour2Cos, f.dowSin, f.dowCos]

/-- Source `intensity`: `exp (clamp (eta, -20, 20))`. -/
noncomputable def intensity (eta : ℝ) : ℝ :=
  Real.exp (max (-20) (min 20 eta))

/-! ## coverageAnalysis.ts and observationWindows.ts: data types -/

/-- The part of a `Track` record the analysis reads; `date` is the parsed
timestamp `new Date(t.date).getTime()` (`none` models NaN). -/
structure Track where
  trackName : String
  date : Option ℤ

/-- Source `TrackingPeriod` (types/Insights.ts); dates are the UTC-midnight
millisecond values of the period's first and last day. -/
structure TrackingPeriod where
  startDate : ℤ
  endDate : ℤ
  dayCount : ℤ
  eventCount : ℕ
  isGap : Bool

/-- Source `CoverageStats` (types/Insights.ts). -/
structure CoverageStats where
  totalDays : ℤ
  activeDays : ℤ
  gapDays : ℤ
  coveragePercent : ℚ
  periods : List TrackingPeriod

/-- Source `ObservationWindow`: a half-open interval `[startMs, endMs)`. -/
structure ObservationWindow where
  startMs : ℤ
  endMs : ℤ

/-- Source `EventStream`; `typeIndex` models the name-to-index `Map`. -/
structure EventStream where
  times : List ℤ
  types : List String
  typeIndex : String → Option ℕ
  typeNames : List String

/-! ## coverageAnalysis.ts: functions -/

/-- The UTC day number of a millisecond timestamp; models
`getDayKeyUTC` (an ISO `YYYY-MM-DD` day-key string), which identifies
UTC calendar days exactly as the day number does. -/
def dayKeyUTC (ms : ℤ) : ℤ := Int.fdiv ms 86400000

/-- One entry of the dense `dailyCountsArray`. -/
structure DayEntry where
  date : ℤ
  dayKey : ℤ
  count : ℕ

/-- The dense list of day-start timestamps from `startDay` to `endDay`
(inclusive) in 24 h steps; models the source's `while` loop, whose
iterations are exactly `startDay + k * 86400000` for `k < totalDays`. -/
def dayStartList (startDay : ℤ) (totalDays : ℕ) : List ℤ :=
  (List.range totalDays).map fun (k : ℕ) => startDay + (k : ℤ) * 86400000

/-- The rolling-median baseline of day `i` over the window of days
`[i - 30 ... i + 30]` clamped to the array. -/
def rollingBaseline (counts : List ℕ) (i : ℕ) : ℕ :=
  let windowStart := i - 30
  let windowEnd := min (counts.length - 1) (i + 30)
  let windowCounts := (counts.drop windowStart).take (windowEnd + 1 - windowStart)
  let sorted := jsSortBy (fun a b => a ≤ b) windowCounts
  sorted.getD (sorted.length / 2) 0

/-- The per-day active flags: day `i` is active iff its count is at least
`max (2, 0.1 * rollingBaseline i)`. -/
def activeFlags (counts : List ℕ) : List Bool :=
  (List.range counts.length).map fun i =>
    decide ((counts.getD i 0 : ℚ) ≥ max 2 ((rollingBaseline counts i : ℚ) * (1/10)))

/-- The period constructed for the day-index run `[periodStart, periodEnd]`
with active flag `periodIsActive` (body of the push in the scan loop of
`computeCoverageStats`; `minGapDays = 14`). -/
def mkPeriod (entries : List DayEntry) (periodStart periodEnd : ℕ)
    (periodIsActive : Bool) : TrackingPeriod :=
  let dayCount : ℤ := (periodEnd : ℤ) - (periodStart : ℤ) + 1
  { startDate := (entries.getD periodStart ⟨0, 0, 0⟩).date
    endDate := (entries.getD periodEnd ⟨0, 0, 0⟩).date
    dayCount := dayCount
    eventCount := (((entries.drop periodStart).take (periodEnd + 1 - periodStart)).map
      (fun e => e.count)).sum
    isGap := !periodIsActive && decide (14 ≤ dayCount) }

/-- The run-scanning loop of `computeCoverageStats` (loop variable `i`
running from 1 to `active.length`; `remaining = active.length + 1 - i`). -/
def periodsGo (entries : List DayEntry) (active : List Bool) :
    ℕ → ℕ → ℕ → Bool → List TrackingPeriod → List TrackingPeriod
  | 0, _, _, _, acc => acc
  | remaining + 1, i, periodStart, periodIsActive, acc =>
      let isLast := i == active.length
      let changed := !isLast && (active.getD i false != periodIsActive)
      if changed || isLast then
        let periodEnd := i - 1
        let acc' := acc ++ [mkPeriod entries periodStart periodEnd periodIsActive]
        if changed then
          periodsGo entries active remaining (i + 1) i (active.getD i false) acc'
        else
          periodsGo entries active remaining (i + 1) periodStart periodIsActive acc'
      else
        periodsGo entries active remaining (i + 1) periodStart periodIsActive acc

/-- Builds the raw (pre-merge) period list from the dense day array and its
active flags. -/
def buildPeriods (entries : List DayEntry) (active : List Bool) :
    List TrackingPeriod :=
  periodsGo entries active active.length 1 0 (active.getD 0 false) []

/-- Merging an adjacent period into the current one (spread-update in
`mergePeriods`). -/
def absorbPeriod (current next : TrackingPeriod) : TrackingPeriod :=
  { current with
      endDate := next.endDate
      dayCount := current.dayCount + next.dayCount
      eventCount := current.eventCount + next.eventCount }

/-- The fold of `mergePeriods`: merge equal-flag neighbours and short gap
runs into the current period, pushing the current period when a genuinely
different neighbour follows. -/
def mergeGo (minGapDays : ℤ) (current : TrackingPeriod) :
    List TrackingPeriod → List TrackingPeriod
  | [] => [current]
  | next :: rest =>
      if current.isGap == next.isGap then
        mergeGo minGapDays (absorbPeriod current next) rest
      else if next.isGap && decide (next.dayCount < minGapDays) then
        mergeGo minGapDays (absorbPeriod current next) rest
      else
        current :: mergeGo minGapDays next rest

/-- Source `mergePeriods`. -/
def mergePeriods (periods : List TrackingPeriod) (minGapDays : ℤ) :
    List TrackingPeriod :=
  if periods.length ≤ 1 then periods
  else
    match periods with
    | [] => []
    | p :: rest => mergeGo minGapDays p rest

/-- The zeroed `CoverageStats` returned on empty or fully-invalid input. -/
def emptyCoverageStats : CoverageStats :=
  { totalDays := 0, activeDays := 0, gapDays := 0, coveragePercent := 0, periods := [] }

/-- Source `computeCoverageStats`: builds the dense UTC daily-count array
between the first and last valid track day, classifies days as active by
the rolling-median threshold, scans runs into periods (an inactive run is
a gap only when at least 14 days long) and merges short gaps away. -/
def computeCoverageStats (tracks : List Track) : CoverageStats :=
  if tracks.isEmpty then emptyCoverageStats
  else
    let validTracks := tracks.filter fun t => t.date.isSome
    if validTracks.isEmpty then emptyCoverageStats
    else
      let dates := validTracks.filterMap fun t => t.date
      let minTs := (dates.min?).getD 0
      let maxTs := (dates.max?).getD 0
      let startDay := dayKeyUTC minTs * 86400000
      let endDay := dayKeyUTC maxTs * 86400000
      let totalDays := Int.fdiv (endDay - startDay) 86400000 + 1
      let dailyCount : ℤ → ℕ := fun key =>
        (validTracks.filter fun t => t.date.map dayKeyUTC == some key).length
      let entries : List DayEntry := (dayStartList startDay totalDays.toNat).map
        fun ms => { date := ms, dayKey := dayKeyUTC ms, count := dailyCount (dayKeyUTC ms) }
      let counts := entries.map fun e => e.count
      let active := activeFlags counts
      let periods := buildPeriods entries active
      let mergedPeriods := mergePeriods periods 14
      let activeDays := ((mergedPeriods.filter fun p => !p.isGap).map
        (fun p => p.dayCount)).sum
      let gapDays := ((mergedPeriods.filter fun p => p.isGap).map
        (fun p => p.dayCount)).sum
      { totalDays := totalDays
        activeDays := activeDays
        gapDays := gapDays
        coveragePercent := if 0 < totalDays then
          ((activeDays : ℚ) / (totalDays : ℚ)) * 100 else 0
        periods := mergedPeriods }

/-! ## observationWindows.ts: functions -/

/-- The window-merging fold of `coverageToWindows`. -/
def windowsGo (minGapMs : ℤ) (current : ObservationWindow) :
    List ObservationWindow → List ObservationWindow
  | [] => [current]
  | w :: rest =>
      if w.startMs ≤ current.endMs + minGapMs then
        windowsGo minGapMs { current with endMs := max current.endMs w.endMs } rest
      else
        current :: windowsGo minGapMs w rest

/-- Source `coverageToWindows`: each active period `[d0 .. d1]` becomes the
half-open window `[startMs d0, endMs d1 + 24 h)`; windows are sorted by
start and merged when closer than `minGapMs`. -/
def coverageToWindows (coverage : CoverageStats) (minGapMs : ℤ) :
    List ObservationWindow :=
  let activePeriods := coverage.periods.filter fun p => !p.isGap
  if activePeriods.isEmpty then []
  else
    let raw : List ObservationWindow := activePeriods.map fun p =>
      { startMs := p.startDate, endMs := p.endDate + 24 * 60 * 60 * 1000 }
    let sorted := jsSortBy (fun a b => a.startMs ≤ b.startMs) raw
    match sorted with
    | [] => []
    | w :: rest => windowsGo minGapMs w rest

/-- Source `totalObservedMs`. -/
def totalObservedMs (windows : List ObservationWindow) : ℤ :=
  windows.foldl (fun sum w => sum + (w.endMs - w.startMs)) 0

/-- Source `isInObservationWindow` (with its early exit once a window
starting after `t` is seen). -/
def isInObservationWindow (t : ℤ) : List ObservationWindow → Bool
  | [] => false
  | w :: rest =>
      if w.startMs ≤ t && t < w.endMs then true
      else if t < w.startMs then false
      else isInObservationWindow t rest

/-- Source `buildEventStream`: keeps the tracks with a valid timestamp
lying in some observation window, sorts them by time, and interns the
sorted distinct type names into a dense index. -/
def buildEventStream (tracks : List Track) (windows : List ObservationWindow) :
    EventStream :=
  let events : List (ℤ × String) := tracks.filterMap fun track =>
    match track.date with
    | none => none
    | some t => if isInObservationWindow t windows then some (t, track.trackName) else none
  let sortedEvents := jsSortBy (fun a b => a.1 ≤ b.1) events
  let typeNames := jsSortBy (fun a b => a ≤ b) (events.map fun e => e.2).dedup
  { times := sortedEvents.map fun e => e.1
    types := sortedEvents.map fun e => e.2
    typeIndex := fun name => typeNames.findIdx? fun n => n == name
    typeNames := typeNames }

/-- Source `getEventsByType`. -/
def getEventsByType (stream : EventStream) (name : String) : List ℤ :=
  ((stream.times.zip stream.types).filter fun e => e.2 == name).map fun e => e.1

/-! ## ppglm.ts -/

/-- Source `PPGLMParams`. -/
structure PPGLMParams where
  numTypes : ℕ
  numBases : ℕ
  beta : List ℝ
  theta : List (List ℝ)

/-- Source `initParams`: zero-filled parameter arrays. -/
def initParams (numTypes numBases : ℕ) : PPGLMParams :=
  { numTypes := numTypes
    numBases := numBases
    beta := List.replicate (numTypes * NUM_BASELINE_FEATURES) 0
    theta := List.replicate numTypes (List.replicate (numTypes * numBases) 0) }

/-- Source `initParamsFromData`: seeds the baseline intercept of each type
`k` to `log ((count_k + 0.5) / max (totalObservedHours, 1e-6))`; every other
entry stays zero. -/
noncomputable def initParamsFromData (numTypes numBases : ℕ)
    (countsByType : List ℚ) (totalObservedHours : ℚ) : PPGLMParams :=
  let params := initParams numTypes numBases
  { params with
      beta := (List.range numTypes).foldl
        (fun beta k =>
          let count := countsByType.getD k 0
          let rate := (count + 1/2) / max totalObservedHours (1/1000000)
          beta.set (k * NUM_BASELINE_FEATURES) (Real.log (rate : ℝ)))
        params.beta }

/-- Source `TimePoint` of `buildTimePoints`.  The source stores the
sentinel `eventType = -1` and a `windowIdx` on quadrature points; neither
is ever read (`eventType` is only used under `isEvent = true`), so the
model stores `0` and drops `windowIdx`. -/
structure TimePoint where
  timeHours : ℚ
  timeMs : ℚ
  isEvent : Bool
  eventType : ℕ
  isQuadLeft : Bool
  dt : Option ℚ

/-- The comparator of `buildTimePoints` as a `sort` predicate: ascending
time, quadrature points before events at the same instant. -/
def timePointLE (a b : TimePoint) : Bool :=
  (a.timeHours < b.timeHours) ||
    (a.timeHours == b.timeHours && (a.isQuadLeft == b.isQuadLeft || a.isQuadLeft))

/-- Source `buildTimePoints`: merges the event stream with the per-window
quadrature left endpoints (window length / `numQuadPoints` apart) in time
order. -/
def buildTimePoints (stream : EventStream) (windows : List ObservationWindow)
    (numQuadPoints : ℕ) : List TimePoint :=
  let eventPoints : List TimePoint := (stream.times.zip stream.types).filterMap
    fun e => (stream.typeIndex e.2).map fun typeIdx =>
      { timeHours := (e.1 : ℚ) / MS_PER_HOUR
        timeMs := (e.1 : ℚ)
        isEvent := true
        eventType := typeIdx
        isQuadLeft := false
        dt := none }
  let quadPoints : List TimePoint := windows.flatMap fun w =>
    (List.range numQuadPoints).map fun q =>
      let dt : ℚ := ((w.endMs : ℚ) - (w.startMs : ℚ)) / (numQuadPoints : ℚ)
      let tLeftMs : ℚ := (w.startMs : ℚ) + (q : ℚ) * dt
      { timeHours := tLeftMs / MS_PER_HOUR
        timeMs := tLeftMs
        isEvent := false
        eventType := 0
        isQuadLeft := true
        dt := some (dt / MS_PER_HOUR) }
  jsSortBy timePointLE (eventPoints ++ quadPoints)

/-- Source `computeEta` (defined identically in ppglm.ts and
diagnostics.ts): the linear predictor
`Σ_j beta[k,j]·f_j + Σ_{src ≠ k} Σ_b theta[k][src,b]·S[src][b]`. -/
noncomputable def computeEta (params : PPGLMParams) (targetType : ℕ)
    (baselineF : List ℝ) (historyS : List (List ℝ)) (numBases : ℕ) : ℝ :=
  (∑ j ∈ Finset.range NUM_BASELINE_FEATURES,
    params.beta.getD (targetType * NUM_BASELINE_FEATURES + j) 0 * baselineF.getD j 0) +
  ∑ src ∈ Finset.range params.numTypes,
    if src = targetType then 0
    else ∑ b ∈ Finset.range numBases,
      (params.theta.getD targetType []).getD (src * numBases + b) 0 *
        (historyS.getD src []).getD b 0

/-- Source `LikelihoodResult`. -/
structure LikelihoodResult where
  logLik : ℝ
  gradBeta : List ℝ
  gradTheta : List (List ℝ)

/-- The running log-likelihood and gradient accumulators of
`computeLogLikelihood`. -/
structure LLAcc where
  logLik : ℝ
  betaGrad : List ℝ
  thetaGrad : List (List ℝ)

/-- Adds `v` to entry `i` of a gradient array (`grad[i] += v`). -/
def listAdd (l : List ℝ) (i : ℕ) (v : ℝ) : List ℝ :=
  l.set i (l.getD i 0 + v)

/-- The quadrature pass of one equal-time group of `computeLogLikelihood`:
subtracts `lam * dt` from the log-likelihood and `lam * feature * dt` from
the gradients for each quadrature point of the group. -/
noncomputable def llQuadPass (params : PPGLMParams) (targetType numBases : ℕ)
    (S : List (List ℝ)) (group : List TimePoint) (acc : LLAcc) : LLAcc :=
  group.foldl
    (fun acc pt =>
      if pt.isQuadLeft then
        match pt.dt with
        | none => acc
        | some dt =>
          let baselineF := baselineFeatureVector pt.timeMs
          let eta := computeEta params targetType baselineF S numBases
          let lam := intensity eta
          { logLik := acc.logLik - lam * (dt : ℝ)
            betaGrad := (List.range NUM_BASELINE_FEATURES).foldl
              (fun g f => listAdd g (targetType * NUM_BASELINE_FEATURES + f)
                (-(lam * baselineF.getD f 0 * (dt : ℝ)))) acc.betaGrad
            thetaGrad := acc.thetaGrad.set targetType
              ((List.range params.numTypes).foldl
                (fun row src =>
                  if src = targetType then row
                  else (List.range numBases).foldl
                    (fun row2 b => listAdd row2 (src * numBases + b)
                      (-(lam * (S.getD src []).getD b 0 * (dt : ℝ)))) row)
                (acc.thetaGrad.getD targetType [])) }
      else acc)
    acc

/-- The event pass of one equal-time group of `computeLogLikelihood`: adds
`clamp (eta, ±20)` to the log-likelihood and the features to the gradients
for each event of the target type. -/
noncomputable def llEventPass (params : PPGLMParams) (targetType numBases : ℕ)
    (S : List (List ℝ)) (group : List TimePoint) (acc : LLAcc) : LLAcc :=
  group.foldl
    (fun acc pt =>
      if pt.isEvent && pt.eventType == targetType then
        let baselineF := baselineFeatureVector pt.timeMs
        let eta := computeEta params targetType baselineF S numBases
        let clampedEta := max (-20) (min 20 eta)
        { logLik := acc.logLik + clampedEta
          betaGrad := (List.range NUM_BASELINE_FEATURES).foldl
            (fun g f => listAdd g (targetType * NUM_BASELINE_FEATURES + f)
              (baselineF.getD f 0)) acc.betaGrad
          thetaGrad := acc.thetaGrad.set targetType
            ((List.range params.numTypes).foldl
              (fun row src =>
                if src = targetType then row
                else (List.range numBases).foldl
                  (fun row2 b => listAdd row2 (src * numBases + b)
                    ((S.getD src []).getD b 0)) row)
              (acc.thetaGrad.getD targetType [])) }
      else acc)
    acc

/-- The grouped scan of `computeLogLikelihood`: advance the recursive state
to the group time, score quadrature points, score target events, then
increment the state for every event of the group. -/
noncomputable def llGroups (params : PPGLMParams) (targetType numBases : ℕ)
    (taus : List ℚ) : List TimePoint → RecursiveState × LLAcc → RecursiveState × LLAcc
  | [], acc => acc
  | p :: rest, (state, acc) =>
      let currentTime := p.timeHours
      let group := (p :: rest).takeWhile fun q => q.timeHours == currentTime
      let rest' := (p :: rest).dropWhile fun q => q.timeHours == currentTime
      let state1 := advanceStateDecayOnly state taus currentTime
      let acc1 := llQuadPass params targetType numBases state1.S group acc
      let acc2 := llEventPass params targetType numBases state1.S group acc1
      let state2 := group.foldl
        (fun st pt => if pt.isEvent then incrementState st pt.eventType 1 else st)
        state1
      llGroups params targetType numBases taus rest' (state2, acc2)
  termination_by points _ => points.length
  decreasing_by
    simp only [List.dropWhile_cons]
    rw [if_pos (by simp)]
    exact Nat.lt_succ_of_le (List.dropWhile_sublist _).length_le

/-- Source `computeLogLikelihood`: regularized log-likelihood and gradient
of the point-process GLM for one target type, with 50 quadrature points per
window and L1/L2 penalties on the target theta row. -/
noncomputable def computeLogLikelihood (params : PPGLMParams)
    (stream : EventStream) (windows : List ObservationWindow)
    (targetType : ℕ) (lambda1 lambda2 : ℝ) : LikelihoodResult :=
  let numTypes := params.numTypes
  let numBases := params.numBases
  let taus := createExponentialBasis.taus.take numBases
  let numQuadPoints := 50
  let points := buildTimePoints stream windows numQuadPoints
  let start : RecursiveState × LLAcc :=
    (initRecursiveState numTypes numBases,
     { logLik := 0
       betaGrad := List.replicate (numTypes * NUM_BASELINE_FEATURES) 0
       thetaGrad := List.replicate numTypes (List.replicate (numTypes * numBases) 0) })
  let scanned := llGroups params targetType numBases taus points start
  let acc := scanned.2
  let reg := (List.range numTypes).foldl
    (fun (acc : LLAcc) src =>
      if src = targetType then acc
      else (List.range numBases).foldl
        (fun (acc2 : LLAcc) b =>
          let w := (params.theta.getD targetType []).getD (src * numBases + b) 0
          { acc2 with
              logLik := acc2.logLik - (lambda1 * |w| + lambda2 * w * w)
              thetaGrad := acc2.thetaGrad.set targetType
                (listAdd (acc2.thetaGrad.getD targetType []) (src * numBases + b)
                  (-(lambda1 * Real.sign w + 2 * lambda2 * w))) })
        acc)
    acc
  { logLik := reg.logLik, gradBeta := reg.betaGrad, gradTheta := reg.thetaGrad }

/-- Source `computeIntensityAt`: replays the stream into the recursive
state up to (strictly before) `timeMs` and evaluates the intensity there. -/
noncomputable def computeIntensityAt (params : PPGLMParams)
    (stream : EventStream) (targetType : ℕ) (timeMs : ℤ) : ℝ :=
  let numBases := params.numBases
  let taus := createExponentialBasis.taus.take numBases
  let state0 := initRecursiveState params.numTypes numBases
  let state := (stream.times.zip stream.types).foldl
    (fun st e =>
      if e.1 < timeMs then
        match stream.typeIndex e.2 with
        | some typeIdx =>
            incrementState (advanceStateDecayOnly st taus ((e.1 : ℚ) / MS_PER_HOUR))
              typeIdx 1
        | none => st
      else st)
    state0
  let state1 := advanceStateDecayOnly state taus ((timeMs : ℚ) / MS_PER_HOUR)
  let baselineF := baselineFeatureVector (timeMs : ℚ)
  intensity (computeEta params targetType baselineF state1.S numBases)

/-! ## fit.ts -/

/-- Source `clampFinite`: clamp to `[-50, 50]`.  The source first resets
non-finite values to 0; in the exact real-number model every value is
finite, so only the clamp remains. -/
noncomputable def clampFinite (x : ℝ) : ℝ :=
  max (-50) (min 50 x)

/-- Source `FitOptions`. -/
structure FitOptions where
  maxIter : ℕ
  learningRate : ℝ
  lambda1 : ℝ
  lambda2 : ℝ
  tolerance : ℝ
  verbose : Bool

/-- Source `Partial<FitOptions>`. -/
structure FitOptionsPartial where
  maxIter : Option ℕ
  learningRate : Option ℝ
  lambda1 : Option ℝ
  lambda2 : Option ℝ
  tolerance : Option ℝ
  verbose : Option Bool

/-- The all-`none` partial options (the `{}` default argument). -/
def emptyFitOptions : FitOptionsPartial :=
  { maxIter := none, learningRate := none, lambda1 := none, lambda2 := none
    tolerance := none, verbose := none }

/-- Source `DEFAULT_OPTIONS`. -/
noncomputable def DEFAULT_OPTIONS : FitOptions :=
  { maxIter := 200, learningRate := 0.01, lambda1 := 0.01, lambda2 := 0.001
    tolerance := 1e-6, verbose := false }

/-- The spread-merge `{...DEFAULT_OPTIONS, ...options}`. -/
noncomputable def mergeOptions (options : FitOptionsPartial) : FitOptions :=
  { maxIter := options.maxIter.getD DEFAULT_OPTIONS.maxIter
    learningRate := options.learningRate.getD DEFAULT_OPTIONS.learningRate
    lambda1 := options.lambda1.getD DEFAULT_OPTIONS.lambda1
    lambda2 := options.lambda2.getD DEFAULT_OPTIONS.lambda2
    tolerance := options.tolerance.getD DEFAULT_OPTIONS.tolerance
    verbose := options.verbose.getD DEFAULT_OPTIONS.verbose }

/-- Source `FitResult`. -/
structure FitResult where
  params : PPGLMParams
  logLik : ℝ
  converged : Bool
  iterations : ℕ

/-- The mutable state of the Adam loop in `fitTargetType`;
`prevLogLik = none` models the initial `-Infinity`. -/
structure AdamState where
  params : PPGLMParams
  mBeta : List ℝ
  vBeta : List ℝ
  mTheta : List (List ℝ)
  vTheta : List (List ℝ)
  prevLogLik : Option ℝ
  converged : Bool
  iter : ℕ

/-- Whether flat theta-row index `idx` is visited by the update loops of
`fitTargetType` (`idx = src * numBases + b` with `src < numTypes`,
`src ≠ targetType`, `b < numBases`; the correspondence is the bijection
`src = idx / numBases`, `b = idx % numBases`). -/
def thetaUpdated (numTypes numBases targetType idx : ℕ) : Prop :=
  0 < numBases ∧ idx < numTypes * numBases ∧ idx / numBases ≠ targetType

instance (numTypes numBases targetType idx : ℕ) :
    Decidable (thetaUpdated numTypes numBases targetType idx) := by
  unfold thetaUpdated; infer_instance

/-- One Adam parameter update of `fitTargetType` (the loop body after the
convergence check): first-moment and second-moment updates,
bias-corrected step, and `clampFinite` on every written parameter. -/
noncomputable def adamUpdate (targetType numTypes numBases : ℕ)
    (opts : FitOptions) (s : AdamState) (result : LikelihoodResult) : AdamState :=
  let beta1 : ℝ := 0.9
  let beta2 : ℝ := 0.999
  let eps : ℝ := 1e-8
  let t := s.iter + 1
  let gB := fun j => result.gradBeta.getD j 0
  let mBeta := s.mBeta.mapIdx fun j m => beta1 * m + (1 - beta1) * gB j
  let vBeta := s.vBeta.mapIdx fun j v => beta2 * v + (1 - beta2) * gB j ^ 2
  let newBeta := s.params.beta.mapIdx fun j x =>
    let mHat := mBeta.getD j 0 / (1 - beta1 ^ t)
    let vHat := vBeta.getD j 0 / (1 - beta2 ^ t)
    clampFinite (x + opts.learningRate * mHat / (Real.sqrt vHat + eps))
  let gT := fun idx => (result.gradTheta.getD targetType []).getD idx 0
  let upd := thetaUpdated numTypes numBases targetType
  let mRow := (s.mTheta.getD targetType []).mapIdx fun idx m =>
    if upd idx then beta1 * m + (1 - beta1) * gT idx else m
  let vRow := (s.vTheta.getD targetType []).mapIdx fun idx v =>
    if upd idx then beta2 * v + (1 - beta2) * gT idx ^ 2 else v
  let newRow := (s.params.theta.getD targetType []).mapIdx fun idx x =>
    if upd idx then
      let mHat := mRow.getD idx 0 / (1 - beta1 ^ t)
      let vHat := vRow.getD idx 0 / (1 - beta2 ^ t)
      clampFinite (x + opts.learningRate * mHat / (Real.sqrt vHat + eps))
    else x
  { params := { s.params with beta := newBeta, theta := s.params.theta.set targetType newRow }
    mBeta := mBeta
    vBeta := vBeta
    mTheta := s.mTheta.set targetType mRow
    vTheta := s.vTheta.set targetType vRow
    prevLogLik := some result.logLik
    converged := s.converged
    iter := t }

/-- The Adam iteration loop of `fitTargetType` (fuel = remaining
iterations): evaluate the likelihood, stop marking `converged` when the
change fell below tolerance, otherwise update and continue. -/
noncomputable def adamLoop (stream : EventStream)
    (windows : List ObservationWindow) (targetType numTypes numBases : ℕ)
    (opts : FitOptions) : ℕ → AdamState → AdamState
  | 0, s => s
  | n + 1, s =>
      let result := computeLogLikelihood s.params stream windows targetType
        opts.lambda1 opts.lambda2
      match s.prevLogLik with
      | some prev =>
          if |result.logLik - prev| < opts.tolerance then { s with converged := true }
          else adamLoop stream windows targetType numTypes numBases opts n
            (adamUpdate targetType numTypes numBases opts s result)
      | none =>
          adamLoop stream windows targetType numTypes numBases opts n
            (adamUpdate targetType numTypes numBases opts s result)

/-- Source `computeCountsByType`. -/
def computeCountsByType (stream : EventStream) (numTypes : ℕ) : List ℚ :=
  stream.types.foldl
    (fun counts typeName =>
      match stream.typeIndex typeName with
      | some idx => counts.set idx (counts.getD idx 0 + 1)
      | none => counts)
    (List.replicate numTypes 0)

/-- Source `computeTotalObservedHours`. -/
def computeTotalObservedHours (windows : List ObservationWindow) : ℚ :=
  ((windows.foldl (fun totalMs w => totalMs + (w.endMs - w.startMs)) 0 : ℤ) : ℚ) /
    MS_PER_HOUR

/-- The fresh Adam moment estimates of `fitTargetType`. -/
def initAdamState (params : PPGLMParams) (numTypes numBases : ℕ) : AdamState :=
  { params := params
    mBeta := List.replicate (numTypes * NUM_BASELINE_FEATURES) 0
    vBeta := List.replicate (numTypes * NUM_BASELINE_FEATURES) 0
    mTheta := List.replicate numTypes (List.replicate (numTypes * numBases) 0)
    vTheta := List.replicate numTypes (List.replicate (numTypes * numBases) 0)
    prevLogLik := none
    converged := false
    iter := 0 }

/-- Source `fitTargetType`: seed the parameters, run up to `maxIter` Adam
iterations with the convergence check, and return the fitted parameters
with the final log-likelihood. -/
noncomputable def fitTargetType (stream : EventStream)
    (windows : List ObservationWindow) (targetType numBases : ℕ)
    (options : FitOptionsPartial) (countsByType : Option (List ℚ))
    (totalObservedHours : Option ℚ) : FitResult :=
  let opts := mergeOptions options
  let numTypes := stream.typeNames.length
  let params0 :=
    match countsByType, totalObservedHours with
    | some counts, some hours => initParamsFromData numTypes numBases counts hours
    | _, _ => initParamsFromData numTypes numBases
        (computeCountsByType stream numTypes) (computeTotalObservedHours windows)
  let s := adamLoop stream windows targetType numTypes numBases opts opts.maxIter
    (initAdamState params0 numTypes numBases)
  let finalResult := computeLogLikelihood s.params stream windows targetType
    opts.lambda1 opts.lambda2
  { params := s.params
    logLik := finalResult.logLik
    converged := s.converged
    iterations := s.iter }

/-- Source `FullModelFit`; `targetResults` models the `Map` as an
insertion-ordered association list. -/
structure FullModelFit where
  params : PPGLMParams
  targetResults : List (ℕ × FitResult)
  typeNames : List String

/-- Source `fitFullModel`: fits every type with at least 10 events
independently and copies each fitted beta block and theta row into the
shared parameter object (progress callbacks and cooperative yields are
side effects and are dropped). -/
noncomputable def fitFullModel (stream : EventStream)
    (windows : List ObservationWindow) (numBases : ℕ)
    (options : FitOptionsPartial) : FullModelFit :=
  let numTypes := stream.typeNames.length
  let countsByType := computeCountsByType stream numTypes
  let totalObservedHours := computeTotalObservedHours windows
  let params0 := initParamsFromData numTypes numBases countsByType totalObservedHours
  let eligibleTypes := (List.range numTypes).filter fun k =>
    (10 : ℚ) ≤ countsByType.getD k 0
  let fitted := eligibleTypes.foldl
    (fun (acc : PPGLMParams × List (ℕ × FitResult)) k =>
      let result := fitTargetType stream windows k numBases options
        (some countsByType) (some totalObservedHours)
      let beta := (List.range NUM_BASELINE_FEATURES).foldl
        (fun beta j => beta.set (k * NUM_BASELINE_FEATURES + j)
          (result.params.beta.getD (k * NUM_BASELINE_FEATURES + j) 0))
        acc.1.beta
      let row := (List.range numTypes).foldl
        (fun row src => (List.range numBases).foldl
          (fun row2 b => row2.set (src * numBases + b)
            ((result.params.theta.getD k []).getD (src * numBases + b) 0))
          row)
        (acc.1.theta.getD k [])
      ({ acc.1 with beta := beta, theta := acc.1.theta.set k row },
       acc.2 ++ [(k, result)]))
    (params0, [])
  { params := fitted.1
    targetResults := fitted.2
    typeNames := stream.typeNames }

/-- Source `extractInfluenceWeights`: the theta sub-row
`theta[targetType][sourceType * numBases + b]`, `b < numBases`. -/
def extractInfluenceWeights (fit : FullModelFit) (sourceType targetType : ℕ) :
    List ℝ :=
  let numBases := fit.params.numBases
  (List.range numBases).map fun b =>
    (fit.params.theta.getD targetType []).getD (sourceType * numBases + b) 0

/-! ## summarize.ts -/

/-- The edge direction tag `excite | inhibit | neutral`. -/
inductive Direction where
  | excite
  | inhibit
  | neutral
deriving DecidableEq, Repr

/-- Source `InfluenceEdge` (summarize.ts, the module imported by the
worker). -/
structure InfluenceEdge where
  sourceType : String
  targetType : String
  peakLagMs : ℝ
  peakLagLabel : String
  peakEffect : ℝ
  integratedEffect : ℝ
  hazardRatioAtPeak : ℝ
  direction : Direction
  strength : ℝ
  weights : List ℝ

/-- Source `BaselineSummary`. -/
structure BaselineSummary where
  typeName : String
  interceptLogRate : ℝ
  hourPeakTime : ℝ
  hourAmplitude : ℝ
  dowPeakDay : ℝ
  dowAmplitude : ℝ

/-- Rounding to the nearest integer, half up (`Math.round` as ℤ). -/
noncomputable def jsRoundInt (x : ℝ) : ℤ :=
  ⌊x + 1/2⌋

/-- Rendering of `x.toFixed(1)` for the nonnegative values that occur in
labels: one decimal digit after rounding `10 * x`. -/
noncomputable def jsToFixed1 (x : ℝ) : String :=
  let t := jsRoundInt (x * 10)
  toString (t / 10) ++ "." ++ toString (t % 10)

/-- Rendering of `x.toFixed(2)` for the nonnegative values that occur in
descriptions: two decimal digits after rounding `100 * x`. -/
noncomputable def jsToFixed2 (x : ℝ) : String :=
  let t := jsRoundInt (x * 100)
  let frac := t % 100
  let fracStr := toString frac
  toString (t / 100) ++ "." ++ (if frac < 10 then "0" ++ fracStr else fracStr)

/-- Source `msToReadableLabel` (summarize.ts). -/
noncomputable def msToReadableLabel (ms : ℝ) : String :=
  let hours := ms / (60 * 60 * 1000)
  if hours < 1 then toString (jsRoundInt (hours * 60)) ++ "min"
  else if hours < 24 then jsToFixed1 hours ++ "h"
  else jsToFixed1 (hours / 24) ++ "d"

/-- Source `extractAllInfluenceEdges` (summarize.ts, the variant the
worker imports): for every ordered pair `src ≠ tgt` whose weight row has
total absolute weight at least `minStrength`, builds an influence edge;
the direction thresholds `±0.1` are applied to the curve value at the
peak lag (`peakValue`).  Edges are sorted by descending strength. -/
noncomputable def extractAllInfluenceEdges (fit : FullModelFit)
    (minStrength : ℝ) : List InfluenceEdge :=
  let numTypes := fit.typeNames.length
  let numBases := fit.params.numBases
  let taus := createExponentialBasis.taus.take numBases
  let edges := (List.range numTypes).flatMap fun src =>
    (List.range numTypes).filterMap fun tgt =>
      if src = tgt then none
      else
        let weights := extractInfluenceWeights fit src tgt
        let totalAbsWeight := weights.foldl (fun sum w => sum + |w|) 0
        if totalAbsWeight < minStrength then none
        else
          let pk := findPeakLag weights taus (7 * 24) 200
          let integrated := integratedEffect weights taus (7 * 24)
          let hr := Real.exp pk.2
          let direction :=
            if (0.1 : ℝ) < pk.2 then Direction.excite
            else if pk.2 < -0.1 then Direction.inhibit
            else Direction.neutral
          let strengthCompressed := totalAbsWeight / (1 + totalAbsWeight)
          some
            { sourceType := fit.typeNames.getD src ""
              targetType := fit.typeNames.getD tgt ""
              peakLagMs := pk.1
              peakLagLabel := msToReadableLabel pk.1
              peakEffect := pk.2
              integratedEffect := integrated
              hazardRatioAtPeak := hr
              direction := direction
              strength := strengthCompressed
              weights := weights }
  jsSortBy (fun a b => b.strength ≤ a.strength) edges

/-- Source `extractBaselineSummaries`: for every type with a fitted
target result, derives the baseline intercept, the hour-of-day peak and
amplitude from beta slots 1 and 2, and the day-of-week peak and amplitude
from beta slots 5 and 6. -/
noncomputable def extractBaselineSummaries (fit : FullModelFit) :
    List BaselineSummary :=
  (List.range fit.typeNames.length).filterMap fun k =>
    if fit.targetResults.any (fun e => e.1 == k) then
      let baseOffset := k * 7
      let intercept := fit.params.beta.getD baseOffset 0
      let hourSin := fit.params.beta.getD (baseOffset + 1) 0
      let hourCos := fit.params.beta.getD (baseOffset + 2) 0
      let dowSin := fit.params.beta.getD (baseOffset + 5) 0
      let dowCos := fit.params.beta.getD (baseOffset + 6) 0
      let hourAmplitude := Real.sqrt (hourSin ^ 2 + hourCos ^ 2)
      let hourPhase := jsAtan2 hourSin hourCos
      let hourPeakTime :=
        jsRem (jsRem (24 - hourPhase * 24 / (2 * Real.pi)) 24 + 24) 24
      let dowAmplitude := Real.sqrt (dowSin ^ 2 + dowCos ^ 2)
      let dowPhase := jsAtan2 dowSin dowCos
      let dowPeakDay :=
        jsRound (jsRem (jsRem (7 - dowPhase * 7 / (2 * Real.pi)) 7 + 7) 7)
      some
        { typeName := fit.typeNames.getD k ""
          interceptLogRate := intercept
          hourPeakTime := hourPeakTime
          hourAmplitude := hourAmplitude
          dowPeakDay := dowPeakDay
          dowAmplitude := dowAmplitude }
    else none

/-- Left-pads a rendered number to two characters (`padStart(2, '0')`). -/
def padTwo (s : String) : String :=
  if s.length < 2 then "0" ++ s else s

/-- Source `formatTime`. -/
noncomputable def formatTime (hour : ℝ) : String :=
  let h : ℤ := ⌊hour⌋
  let m : ℤ := jsRoundInt ((hour - (h : ℝ)) * 60)
  padTwo (toString h) ++ ":" ++ padTwo (toString m)

/-- Source `dayName`.  The source returns a fallback for non-finite input;
in the exact model every value is finite, so only the modular lookup
remains (`%` is JavaScript's truncated remainder, `Int.tmod`). -/
noncomputable def dayName (dow : ℝ) : String :=
  let names := ["Sunday", "Monday", "Tuesday", "Wednesday", "Thursday",
    "Friday", "Saturday"]
  let idx := (Int.tmod (jsRoundInt dow) 7 + 7).tmod 7
  names.getD idx.toNat ""

/-- The insight kind tag `influence | rhythm | co-occurrence`. -/
inductive InsightKind where
  | influence
  | rhythm
  | coOccurrence
deriving DecidableEq, Repr

/-- Source `ContinuousInsight`.  The untyped `metadata` record (a UI-only
bag restating edge/baseline fields) is not modelled. -/
structure ContinuousInsight where
  id : String
  type : InsightKind
  title : String
  description : String
  effectSize : ℝ
  peakLag : String
  confidence : ℝ

/-- Source `generateContinuousInsights` (summarize.ts): renders up to
`0.6 * maxInsights` non-neutral edges as influence or co-occurrence
insights (co-occurrence when the peak lag is under 30 min) and up to
`0.4 * maxInsights` sufficiently rhythmic baselines, truncating the
result to `maxInsights`. -/
noncomputable def generateContinuousInsights (edges : List InfluenceEdge)
    (baselines : List BaselineSummary) (maxInsights : ℕ) :
    List ContinuousInsight :=
  let edgeInsights := (edges.take (⌊(maxInsights : ℚ) * (6/10)⌋.toNat)).foldl
    (fun (acc : List ContinuousInsight × ℕ) edge =>
      if edge.direction = Direction.neutral then acc
      else
        let hrStr := jsToFixed2 edge.hazardRatioAtPeak
        let dirWord := if edge.direction = Direction.excite then "increases"
          else "decreases"
        let isCoOccurrence := edge.peakLagMs < 30 * 60 * 1000
        if isCoOccurrence then
          (acc.1 ++ [{ id := "co-" ++ toString acc.2
                       type := InsightKind.coOccurrence
                       title := edge.sourceType ++ " ↔ " ++ edge.targetType
                       description := edge.sourceType ++ " and " ++ edge.targetType ++
                         " tend to occur together (HR=" ++ hrStr ++ ")"
                       effectSize := edge.hazardRatioAtPeak
                       peakLag := edge.peakLagLabel
                       confidence := min 1 edge.strength }], acc.2 + 1)
        else
          (acc.1 ++ [{ id := "inf-" ++ toString acc.2
                       type := InsightKind.influence
                       title := edge.sourceType ++ " → " ++ edge.targetType
                       description := edge.sourceType ++ " " ++ dirWord ++ " " ++
                         edge.targetType ++ " rate, peaking at " ++ edge.peakLagLabel ++
                         " (HR=" ++ hrStr ++ ")"
                       effectSize := edge.hazardRatioAtPeak
                       peakLag := edge.peakLagLabel
                       confidence := min 1 edge.strength }], acc.2 + 1))
    ([], 0)
  let allInsights := (baselines.take (⌊(maxInsights : ℚ) * (4/10)⌋.toNat)).foldl
    (fun (acc : List ContinuousInsight × ℕ) baseline =>
      if baseline.hourAmplitude < 0.3 ∧ baseline.dowAmplitude < 0.2 then acc
      else
        let parts : List String :=
          (if (0.3 : ℝ) ≤ baseline.hourAmplitude then
            ["daily peak around " ++ formatTime baseline.hourPeakTime] else []) ++
          (if (0.2 : ℝ) ≤ baseline.dowAmplitude then
            ["weekly peak on " ++ dayName baseline.dowPeakDay ++ "s"] else [])
        if parts.isEmpty then acc
        else
          let desc := baseline.typeName ++ " has " ++ String.intercalate " and " parts
          (acc.1 ++ [{ id := "rhythm-" ++ toString acc.2
                       type := InsightKind.rhythm
                       title := baseline.typeName ++ " rhythm"
                       description := desc
                       effectSize := max baseline.hourAmplitude baseline.dowAmplitude
                       peakLag := ""
                       confidence := 0.8 }], acc.2 + 1))
    edgeInsights
  allInsights.1.take maxInsights

/-! ## diagnostics.ts -/

/-- Source `DiagnosticResult`. -/
structure DiagnosticResult where
  ksStatistic : ℝ
  ksPassesAt05 : Bool
  transformedTimes : List ℝ
  expectedIntervals : List ℝ

/-- Source `getValidSegments`: the parts of `[prevEventMs, currEventMs]`
covered by observation windows (the unused `windowIdx` field is dropped). -/
def getValidSegments (prevEventMs currEventMs : ℚ)
    (windows : List ObservationWindow) : List (ℚ × ℚ) :=
  windows.filterMap fun w =>
    let segStart := max prevEventMs (w.startMs : ℚ)
    let segEnd := min currEventMs (w.endMs : ℚ)
    if segStart < segEnd then some (segStart, segEnd) else none

/-- The stream-replay cursor of `timeRescalingDiagnostic`. -/
structure DiagCursor where
  state : RecursiveState
  eventPtr : ℕ

/-- Advances the cursor over one stream event (shared body of the two
`eventPtr` while loops: decay to the event time and increment when the
type is known, and step the pointer unconditionally). -/
noncomputable def diagStep (stream : EventStream) (taus : List ℚ)
    (ds : DiagCursor) : DiagCursor :=
  let evtMs := stream.times.getD ds.eventPtr 0
  match stream.typeIndex (stream.types.getD ds.eventPtr "") with
  | some evtType =>
      { state := incrementState
          (advanceStateDecayOnly ds.state taus ((evtMs : ℚ) / MS_PER_HOUR)) evtType 1
        eventPtr := ds.eventPtr + 1 }
  | none => { ds with eventPtr := ds.eventPtr + 1 }

/-- The `while (eventPtr < length ∧ times[eventPtr] < tMidMs)` loop,
with fuel (`stream.times.length` suffices). -/
noncomputable def consumeEventsBefore (stream : EventStream) (taus : List ℚ)
    (tMidMs : ℚ) : ℕ → DiagCursor → DiagCursor
  | 0, ds => ds
  | fuel + 1, ds =>
      if ds.eventPtr < stream.times.length ∧
          ((stream.times.getD ds.eventPtr 0 : ℚ)) < tMidMs then
        consumeEventsBefore stream taus tMidMs fuel (diagStep stream taus ds)
      else ds

/-- The `while (eventPtr ≤ idx ∧ eventPtr < length)` catch-up loop,
with fuel. -/
noncomputable def consumeEventsThrough (stream : EventStream) (taus : List ℚ)
    (idx : ℕ) : ℕ → DiagCursor → DiagCursor
  | 0, ds => ds
  | fuel + 1, ds =>
      if ds.eventPtr ≤ idx ∧ ds.eventPtr < stream.times.length then
        consumeEventsThrough stream taus idx fuel (diagStep stream taus ds)
      else ds

/-- The 20-point quadrature of one valid segment in
`timeRescalingDiagnostic`, accumulating `lam * dtHours`. -/
noncomputable def diagSegmentIntegral (params : PPGLMParams)
    (stream : EventStream) (taus : List ℚ) (targetType numBases : ℕ)
    (seg : ℚ × ℚ) (start : DiagCursor × ℝ) : DiagCursor × ℝ :=
  let numQuadPoints : ℕ := 20
  let dtMs : ℚ := (seg.2 - seg.1) / (numQuadPoints : ℚ)
  let dtHours : ℚ := dtMs / MS_PER_HOUR
  (List.range numQuadPoints).foldl
    (fun (acc : DiagCursor × ℝ) q =>
      let tMidMs : ℚ := seg.1 + ((q : ℚ) + 1/2) * dtMs
      let tMidHours : ℚ := tMidMs / MS_PER_HOUR
      let ds1 := consumeEventsBefore stream taus tMidMs stream.times.length acc.1
      let ds2 : DiagCursor :=
        { ds1 with state := advanceStateDecayOnly ds1.state taus tMidHours }
      let baselineF := baselineFeatureVector tMidMs
      let eta := computeEta params targetType baselineF ds2.state.S numBases
      let lam := intensity eta
      (ds2, acc.2 + lam * (dtHours : ℝ)))
    start

/-- Source `timeRescalingDiagnostic`: integrates the fitted intensity over
each inter-event interval of the target type (restricted to observation
windows), compares the transformed times against Exponential(1) with the
one-sample KS statistic, and passes at the 5 % level iff
`KS < 1.36 / sqrt n`. -/
noncomputable def timeRescalingDiagnostic (params : PPGLMParams)
    (stream : EventStream) (windows : List ObservationWindow)
    (targetType : ℕ) : DiagnosticResult :=
  let numBases := params.numBases
  let taus := createExponentialBasis.taus.take numBases
  let targetIndices := (List.range stream.times.length).filter fun i =>
    stream.typeIndex (stream.types.getD i "") == some targetType
  if targetIndices.length < 10 then
    { ksStatistic := 1, ksPassesAt05 := false, transformedTimes := []
      expectedIntervals := [] }
  else
    let start : DiagCursor × List ℝ × Option ℕ :=
      (⟨initRecursiveState params.numTypes numBases, 0⟩, [], none)
    let scanned := targetIndices.foldl
      (fun (acc : DiagCursor × List ℝ × Option ℕ) currTargetIdx =>
        let currEventMs : ℚ := (stream.times.getD currTargetIdx 0 : ℚ)
        let afterIntegral : DiagCursor × List ℝ :=
          match acc.2.2 with
          | some prevTargetIdx =>
              let prevEventMs : ℚ := (stream.times.getD prevTargetIdx 0 : ℚ)
              let segments := getValidSegments prevEventMs currEventMs windows
              let integ := segments.foldl
                (fun st seg => diagSegmentIntegral params stream taus targetType
                  numBases seg st)
                (acc.1, 0)
              (integ.1, acc.2.1 ++ [integ.2])
          | none => (acc.1, acc.2.1)
        let ds := consumeEventsThrough stream taus currTargetIdx
          stream.times.length afterIntegral.1
        (ds, afterIntegral.2, some currTargetIdx))
      start
    let transformedTimes := scanned.2.1
    let n := transformedTimes.length
    let sortedTransformed := jsSortBy (fun a b => a ≤ b) transformedTimes
    let maxD := (List.range n).foldl
      (fun (maxD : ℝ) (i : ℕ) =>
        let empiricalCdf : ℝ := ((i : ℝ) + 1) / (n : ℝ)
        let theoreticalCdf : ℝ := 1 - Real.exp (-(sortedTransformed.getD i 0))
        let d := |empiricalCdf - theoreticalCdf|
        if maxD < d then d else maxD)
      0
    let criticalValue : ℝ := 1.36 / Real.sqrt (n : ℝ)
    { ksStatistic := maxD
      ksPassesAt05 := decide (maxD < criticalValue)
      transformedTimes := transformedTimes
      expectedIntervals := transformedTimes.map fun _ => 1 }

/-! ## insights.worker.ts -/

/-- Source `WorkerOptions` (workerTypes.ts): every field optional. -/
structure WorkerOptions where
  numBases : Option ℕ
  maxIter : Option ℕ
  learningRate : Option ℝ
  lambda1 : Option ℝ
  lambda2 : Option ℝ
  minStrength : Option ℝ
  maxInsights : Option ℕ

/-- The all-`none` worker options. -/
def emptyWorkerOptions : WorkerOptions :=
  { numBases := none, maxIter := none, learningRate := none, lambda1 := none
    lambda2 := none, minStrength := none, maxInsights := none }

/-- The serializable edge record the worker posts (the subset of
`InfluenceEdge` fields assigned in `runAnalysis`). -/
structure InfluenceEdgeSerializable where
  sourceType : String
  targetType : String
  peakLagMs : ℝ
  peakLagLabel : String
  peakEffect : ℝ
  integratedEffect : ℝ
  hazardRatioAtPeak : ℝ
  direction : Direction
  strength : ℝ

/-- Source `DiagnosticSerializable` (workerTypes.ts). -/
structure DiagnosticSerializable where
  typeName : String
  ksStatistic : ℝ
  ksPassesAt05 : Bool

/-- Source `ContinuousInsightsResultSerializable` (workerTypes.ts): the
payload of the single `result` message `runAnalysis` posts. -/
structure AnalysisResultData where
  insights : List ContinuousInsight
  edges : List InfluenceEdgeSerializable
  baselines : List BaselineSummary
  diagnostics : List DiagnosticSerializable
  coverage : CoverageStats
  totalObservedHours : ℚ
  numEvents : ℕ
  numTypes : ℕ
  modelFitted : Bool

/-- Source `runAnalysis` (insights.worker.ts), modelled as the payload of
the result message it posts: compute coverage and windows (gate: empty
windows), build the stream (gate: fewer than 50 events or 2 types), fit
the full model, extract edges, baselines, insights and per-target
diagnostics, and post the summary with `modelFitted := true`.  Progress
messages are side effects and are dropped. -/
noncomputable def runAnalysis (tracks : List Track) (options : WorkerOptions) :
    AnalysisResultData :=
  let numBases := options.numBases.getD 6
  let maxIter := options.maxIter.getD 150
  let learningRate := options.learningRate.getD 0.01
  let lambda1 := options.lambda1.getD 0.01
  let lambda2 := options.lambda2.getD 0.001
  let minStrength := options.minStrength.getD 0.1
  let maxInsights := options.maxInsights.getD 20
  let coverage := computeCoverageStats tracks
  let windows := coverageToWindows coverage (6 * 60 * 60 * 1000)
  if windows.isEmpty then
    { insights := [], edges := [], baselines := [], diagnostics := []
      coverage := coverage, totalObservedHours := 0, numEvents := 0
      numTypes := 0, modelFitted := false }
  else
    let stream := buildEventStream tracks windows
    let totalMs := totalObservedMs windows
    let totalObservedHours : ℚ := (totalMs : ℚ) / (60 * 60 * 1000)
    if stream.times.length < 50 ∨ stream.typeNames.length < 2 then
      { insights := [], edges := [], baselines := [], diagnostics := []
        coverage := coverage, totalObservedHours := totalObservedHours
        numEvents := stream.times.length, numTypes := stream.typeNames.length
        modelFitted := false }
    else
      let fit := fitFullModel stream windows numBases
        { maxIter := some maxIter, learningRate := some learningRate
          lambda1 := some lambda1, lambda2 := some lambda2
          tolerance := none, verbose := none }
      let edgesRaw := extractAllInfluenceEdges fit minStrength
      let baselines := extractBaselineSummaries fit
      let insights := generateContinuousInsights edgesRaw baselines maxInsights
      let edges := edgesRaw.map fun e =>
        { sourceType := e.sourceType
          targetType := e.targetType
          peakLagMs := e.peakLagMs
          peakLagLabel := e.peakLagLabel
          peakEffect := e.peakEffect
          integratedEffect := e.integratedEffect
          hazardRatioAtPeak := e.hazardRatioAtPeak
          direction := e.direction
          strength := e.strength : InfluenceEdgeSerializable }
      let diagnostics := fit.targetResults.map fun kr =>
        let diag := timeRescalingDiagnostic fit.params stream windows kr.1
        { typeName := stream.typeNames.getD kr.1 ""
          ksStatistic := diag.ksStatistic
          ksPassesAt05 := diag.ksPassesAt05 : DiagnosticSerializable }
      { insights := insights
        edges := edges
        baselines := baselines
        diagnostics := diagnostics
        coverage := coverage
        totalObservedHours := totalObservedHours
        numEvents := stream.times.length
        numTypes := stream.typeNames.length
        modelFitted := true }

/-! ## Concrete instances used to settle the claims -/

/-- A concrete two-type fit with `numBases = 1`: the influence row of
target 1 gives source 0 the single weight 1, everything else zero. -/
def ceFit1 : FullModelFit :=
  { params :=
      { numTypes := 2
        numBases := 1
        beta := List.replicate 14 0
        theta := [[0, 0], [1, 0]] }
    targetResults := []
    typeNames := ["A", "B"] }

/-- The unique influence edge `extractAllInfluenceEdges` emits for
`ceFit1`: its peak value is `exp (-1) ≈ 0.37 > 0.1` (so the source
classifies it `excite`), while its integrated effect
`(1/12) (1 - exp (-2016)) < 0.1` would make the claimed
integrated-effect rule classify it `neutral`. -/
noncomputable def ceEdge1 : InfluenceEdge :=
  { sourceType := "A"
    targetType := "B"
    peakLagMs := 300000
    peakLagLabel := msToReadableLabel 300000
    peakEffect := Real.exp (-1)
    integratedEffect := (1/12 : ℝ) * (1 - Real.exp (-2016))
    hazardRatioAtPeak := Real.exp (Real.exp (-1))
    direction := Direction.excite
    strength := 1/2
    weights := [1] }

/-- The mathematical (floor-based) modulo on reals, the `mod` of the
claim's peak-day formula. -/
noncomputable def realMod (a b : ℝ) : ℝ :=
  a - b * ⌊a / b⌋

/-- A placeholder per-target fit result (its contents are irrelevant to
`extractBaselineSummaries`, which only tests key membership). -/
noncomputable def dummyFitResult : FitResult :=
  { params := initParams 1 1, logLik := 0, converged := false, iterations := 0 }

/-- A concrete one-type fit with a fitted target whose day-of-week beta
slots are `(dowSin, dowCos) = (1, 3)`: the dow phase is
`arctan (1/3) ∈ (0, π/7)`, which drives the rounded peak day to 7. -/
noncomputable def ceFit4 : FullModelFit :=
  { params :=
      { numTypes := 1
        numBases := 1
        beta := [0, 0, 0, 0, 0, 1, 3]
        theta := [[0]] }
    targetResults := [(0, dummyFitResult)]
    typeNames := ["A"] }

/-- The unique baseline summary `extractBaselineSummaries` produces for
`ceFit4`; its `dowPeakDay` is 7, outside the claimed range `{0..6}`. -/
noncomputable def ceSummary4 : BaselineSummary :=
  { typeName := "A"
    interceptLogRate := 0
    hourPeakTime := 0
    hourAmplitude := 0
    dowPeakDay := 7
    dowAmplitude := Real.sqrt 10 }

/-- A concrete coverage result with a single one-day active period, used
to instantiate the window-soundness theorem. -/
def cwCoverage : CoverageStats :=
  { totalDays := 1
    activeDays := 1
    gapDays := 0
    coveragePercent := 100
    periods := [{ startDate := 0, endDate := 0, dayCount := 1,
                  eventCount := 1, isGap := false }] }

/-- A concrete track list used to instantiate the event-stream soundness
theorem. -/
def cwTracks : List Track := [{ trackName := "A", date := some 100 }]

/-- A concrete window list used to instantiate the event-stream soundness
theorem. -/
def cwWindows : List ObservationWindow := [{ startMs := 0, endMs := 200 }]

/-- A concrete one-type event stream used to instantiate the clamping
theorems about `fitTargetType`. -/
def cwStream : EventStream :=
  { times := [], types := [], typeIndex := fun _ => none, typeNames := ["A"] }

/-- Partial fit options requesting zero Adam iterations (`maxIter = 0`),
under which `fitTargetType` returns the unclamped seed parameters. -/
def cwOptions0 : FitOptionsPartial :=
  { maxIter := some 0, learningRate := none, lambda1 := none, lambda2 := none
    tolerance := none, verbose := none }

/-- 54 tracks in 6 types of 9 events each, all inside UTC day 0: the
worker's gates pass (54 events, 6 types, one active day) while no single
type reaches the 10-event fit-eligibility threshold. -/
def ceTracks54 : List Track :=
  (List.range 54).map fun i =>
    { trackName := ["A", "B", "C", "D", "E", "F"].getD (i / 9) ""
      date := some (i : ℤ) }

/-- The observation windows the pipeline computes for `ceTracks54`. -/
def ceWindows54 : List ObservationWindow :=
  coverageToWindows (computeCoverageStats ceTracks54) (6 * 60 * 60 * 1000)

/-- The event stream the pipeline computes for `ceTracks54`. -/
def ceStream54 : EventStream := buildEventStream ceTracks54 ceWindows54

/-! ## Helper lemmas about the sort model -/

theorem jsInsert_perm {α : Type} (le : α → α → Bool) (x : α) (l : List α) :
    (jsInsert le x l).Perm (x :: l) := by
  induction l with
  | nil => rfl
  | cons y ys ih =>
      unfold jsInsert
      by_cases h : le y x = true
      · rw [if_pos h]
        exact ((ih.cons y).trans (List.Perm.swap x y ys))
      · rw [if_neg h]

theorem mem_jsInsert {α : Type} {le : α → α → Bool} {a x : α} {l : List α} :
    a ∈ jsInsert le x l ↔ a = x ∨ a ∈ l := by
  rw [(jsInsert_perm le x l).mem_iff, List.mem_cons]

theorem jsSortBy_foldl_perm {α : Type} (le : α → α → Bool) (l acc : List α) :
    (l.foldl (fun acc x => jsInsert le x acc) acc).Perm (acc ++ l) := by
  induction l generalizing acc with
  | nil => simp
  | cons x xs ih =>
      simp only [List.foldl_cons]
      refine (ih (jsInsert le x acc)).trans ?_
      refine (List.Perm.append_right xs ((jsInsert_perm le x acc))).trans ?_
      exact (List.perm_middle).symm

theorem jsSortBy_perm {α : Type} (le : α → α → Bool) (l : List α) :
    (jsSortBy le l).Perm l := by
  simpa using jsSortBy_foldl_perm le l []

theorem mem_jsSortBy {α : Type} {le : α → α → Bool} {a : α} {l : List α} :
    a ∈ jsSortBy le l ↔ a ∈ l :=
  (jsSortBy_perm le l).mem_iff

theorem jsInsert_sorted {α : Type} {le : α → α → Bool}
    (htot : ∀ a b, le a b = true ∨ le b a = true)
    (htrans : ∀ a b c, le a b = true → le b c = true → le a c = true)
    (x : α) {l : List α} (hl : l.Pairwise fun a b => le a b = true) :
    (jsInsert le x l).Pairwise fun a b => le a b = true := by
  induction l with
  | nil => simp [jsInsert]
  | cons y ys ih =>
      rcases List.pairwise_cons.mp hl with ⟨hy, hys⟩
      unfold jsInsert
      by_cases h : le y x = true
      · rw [if_pos h]
        refine List.pairwise_cons.mpr ⟨?_, ih hys⟩
        intro z hz
        rcases mem_jsInsert.mp hz with rfl | hz
        · exact h
        · exact hy z hz
      · rw [if_neg h]
        have hxy : le x y = true := (htot x y).resolve_right fun hc => h hc
        refine List.pairwise_cons.mpr ⟨?_, hl⟩
        intro z hz
        rcases List.mem_cons.mp hz with rfl | hz
        · exact hxy
        · exact htrans x y z hxy (hy z hz)

theorem jsSortBy_sorted {α : Type} {le : α → α → Bool}
    (htot : ∀ a b, le a b = true ∨ le b a = true)
    (htrans : ∀ a b c, le a b = true → le b c = true → le a c = true)
    (l : List α) :
    (jsSortBy le l).Pairwise fun a b => le a b = true := by
  have main : ∀ (l acc : List α), (acc.Pairwise fun a b => le a b = true) →
      ((l.foldl (fun acc x => jsInsert le x acc) acc).Pairwise
        fun a b => le a b = true) := by
    intro l
    induction l with
    | nil => intro acc h; simpa using h
    | cons x xs ih =>
        intro acc h
        simpa using ih (jsInsert le x acc) (jsInsert_sorted htot htrans x h)
  exact main l [] (by simp)

theorem listGetD_set_self {α : Type} (l : List α) (i : ℕ) (a d : α)
    (h : i < l.length) : (l.set i a).getD i d = a := by
  rw [List.getD_eq_getElem?_getD, List.getElem?_set, if_pos rfl, if_pos h]
  rfl

theorem listGetD_set_ne {α : Type} (l : List α) {i j : ℕ} (a d : α)
    (h : i ≠ j) : (l.set i a).getD j d = l.getD j d := by
  rw [List.getD_eq_getElem?_getD, List.getElem?_set, if_neg h,
    ← List.getD_eq_getElem?_getD]

/-! ## Helper lemmas about the recursive state -/

theorem advance_lastTime (st : RecursiveState) (taus : List ℚ) (t : ℚ) :
    (advanceStateDecayOnly st taus t).lastTimeHours = some t := by
  unfold advanceStateDecayOnly
  cases h : st.lastTimeHours with
  | none => rfl
  | some t0 => by_cases hlt : t0 < t <;> simp [hlt]

theorem advance_S_of_none (st : RecursiveState) (taus : List ℚ) (t : ℚ)
    (h : st.lastTimeHours = none) :
    (advanceStateDecayOnly st taus t).S = st.S := by
  unfold advanceStateDecayOnly
  rw [h]

theorem advance_S_of_not_lt (st : RecursiveState) (taus : List ℚ) (t t0 : ℚ)
    (h : st.lastTimeHours = some t0) (hle : t ≤ t0) :
    (advanceStateDecayOnly st taus t).S = st.S := by
  unfold advanceStateDecayOnly
  rw [h]
  simp [not_lt.mpr hle]

theorem advance_S_of_lt (st : RecursiveState) (taus : List ℚ) (t t0 : ℚ)
    (h : st.lastTimeHours = some t0) (hlt : t0 < t) :
    (advanceStateDecayOnly st taus t).S = st.S.map fun row =>
      row.mapIdx fun b x =>
        if hb : b < taus.length then x * decayFactor (t - t0) (taus.get ⟨b, hb⟩)
        else x := by
  unfold advanceStateDecayOnly
  rw [h]
  simp [hlt]

theorem advance_S_length (st : RecursiveState) (taus : List ℚ) (t : ℚ) :
    (advanceStateDecayOnly st taus t).S.length = st.S.length := by
  unfold advanceStateDecayOnly
  cases st.lastTimeHours with
  | none => rfl
  | some t0 => by_cases hlt : t0 < t <;> simp [hlt]

theorem advance_row_length (st : RecursiveState) (taus : List ℚ) (t : ℚ)
    (s : ℕ) :
    ((advanceStateDecayOnly st taus t).S.getD s []).length =
      (st.S.getD s []).length := by
  unfold advanceStateDecayOnly
  cases st.lastTimeHours with
  | none => rfl
  | some t0 =>
      by_cases hlt : t0 < t
      · simp only [hlt, if_pos]
        by_cases hs : s < st.S.length
        · rw [List.getD_eq_getElem?_getD, List.getD_eq_getElem?_getD,
            List.getElem?_map, List.getElem?_eq_getElem hs]
          simp
        · rw [List.getD_eq_getElem?_getD, List.getD_eq_getElem?_getD,
            List.getElem?_eq_none (by simpa using not_lt.mp hs),
            List.getElem?_eq_none (by simpa using not_lt.mp hs)]
      · simp [hlt]

theorem advance_entry (st : RecursiveState) (taus : List ℚ) (t t0 : ℚ)
    (h : st.lastTimeHours = some t0) (hle : t0 ≤ t) (s b : ℕ)
    (hs : s < st.S.length) (hb : b < (st.S.getD s []).length)
    (hbt : b < taus.length) :
    stateEntry (advanceStateDecayOnly st taus t) s b =
      stateEntry st s b * decayFactor (t - t0) (taus.get ⟨b, hbt⟩) := by
  rcases lt_or_eq_of_le hle with hlt | heq
  · rw [stateEntry, advance_S_of_lt st taus t t0 h hlt]
    have hget : (st.S.map fun row => row.mapIdx fun b x =>
        if hb : b < taus.length then x * decayFactor (t - t0) (taus.get ⟨b, hb⟩)
        else x).getD s [] = (st.S.getD s []).mapIdx fun b x =>
        if hb : b < taus.length then x * decayFactor (t - t0) (taus.get ⟨b, hb⟩)
        else x := by
      rw [List.getD_eq_getElem?_getD, List.getElem?_map,
        List.getElem?_eq_getElem hs]
      simp [List.getD_eq_getElem?_getD, List.getElem?_eq_getElem hs]
    rw [hget]
    have hb2 : b < ((st.S.getD s []).mapIdx fun b x =>
        if hb : b < taus.length then x * decayFactor (t - t0) (taus.get ⟨b, hb⟩)
        else x).length := by simpa using hb
    rw [List.getD_eq_getElem?_getD, List.getElem?_eq_getElem hb2]
    simp only [List.getElem_mapIdx]
    rw [dif_pos hbt]
    simp only [Option.getD_some]
    have hentry : stateEntry st s b = (st.S.getD s [])[b] := by
      unfold stateEntry
      rw [List.getD_eq_getElem?_getD, List.getElem?_eq_getElem hb]
      rfl
    rw [hentry]
  · rw [stateEntry, advance_S_of_not_lt st taus t t0 h (le_of_eq heq.symm)]
    subst heq
    simp [decayFactor, stateEntry]

theorem increment_S_length (st : RecursiveState) (ty : ℕ) (c : ℝ) :
    (incrementState st ty c).S.length = st.S.length := by
  unfold incrementState
  by_cases h : ty < st.S.length <;> simp [h]

theorem increment_row_length (st : RecursiveState) (ty : ℕ) (c : ℝ) (s : ℕ) :
    ((incrementState st ty c).S.getD s []).length = (st.S.getD s []).length := by
  unfold incrementState
  by_cases h : ty < st.S.length
  · simp only [h, dif_pos]
    by_cases hst : s = ty
    · subst hst
      rw [listGetD_set_self _ _ _ _ h]
      simp [List.getD_eq_getElem?_getD, List.getElem?_eq_getElem h,
        List.get_eq_getElem]
    · rw [listGetD_set_ne _ _ _ (fun hc => hst hc.symm)]
  · simp [h]

theorem increment_lastTime (st : RecursiveState) (ty : ℕ) (c : ℝ) :
    (incrementState st ty c).lastTimeHours = st.lastTimeHours := by
  unfold incrementState
  by_cases h : ty < st.S.length <;> simp [h]

theorem increment_entry_same (st : RecursiveState) (ty : ℕ) (c : ℝ) (b : ℕ)
    (h : ty < st.S.length) (hb : b < (st.S.getD ty []).length) :
    stateEntry (incrementState st ty c) ty b = stateEntry st ty b + c := by
  unfold incrementState stateEntry
  rw [dif_pos h]
  simp only
  rw [listGetD_set_self _ _ _ _ h]
  have hrow : st.S.get ⟨ty, h⟩ = st.S.getD ty [] := by
    simp [List.getD_eq_getElem?_getD, List.getElem?_eq_getElem h,
      List.get_eq_getElem]
  rw [hrow]
  have hb2 : b < ((st.S.getD ty []).map (· + c)).length := by simpa using hb
  rw [List.getD_eq_getElem?_getD, List.getElem?_eq_getElem hb2]
  simp only [Option.getD_some, List.getElem_map]
  have hentry : (st.S.getD ty []).getD b 0 = (st.S.getD ty [])[b] := by
    rw [List.getD_eq_getElem?_getD, List.getElem?_eq_getElem hb]
    rfl
  rw [hentry]

theorem increment_entry_other (st : RecursiveState) (ty : ℕ) (c : ℝ) (s b : ℕ)
    (hs : s ≠ ty) :
    stateEntry (incrementState st ty c) s b = stateEntry st s b := by
  unfold incrementState stateEntry
  by_cases h : ty < st.S.length
  · rw [dif_pos h]
    simp only
    rw [listGetD_set_ne _ _ _ (fun hc => hs hc.symm)]
  · rw [dif_neg h]

theorem processEvents_S_length (taus : List ℚ) (events : List (ℚ × ℕ))
    (st : RecursiveState) :
    (processEvents taus events st).S.length = st.S.length := by
  induction events generalizing st with
  | nil => rfl
  | cons e rest ih =>
      unfold processEvents
      simp only [List.foldl_cons]
      rw [show List.foldl _ _ rest = processEvents taus rest
        (incrementState (advanceStateDecayOnly st taus e.1) e.2 1) from rfl]
      rw [ih, increment_S_length, advance_S_length]

theorem processEvents_row_length (taus : List ℚ) (events : List (ℚ × ℕ))
    (st : RecursiveState) (s : ℕ) :
    ((processEvents taus events st).S.getD s []).length =
      (st.S.getD s []).length := by
  induction events generalizing st with
  | nil => rfl
  | cons e rest ih =>
      unfold processEvents
      simp only [List.foldl_cons]
      rw [show List.foldl _ _ rest = processEvents taus rest
        (incrementState (advanceStateDecayOnly st taus e.1) e.2 1) from rfl]
      rw [ih, increment_row_length, advance_row_length]

theorem processEvents_append_singleton (taus : List ℚ)
    (l : List (ℚ × ℕ)) (e : ℚ × ℕ) (st : RecursiveState) :
    processEvents taus (l ++ [e]) st =
      incrementState (advanceStateDecayOnly (processEvents taus l st) taus e.1)
        e.2 1 := by
  unfold processEvents
  rw [List.foldl_append]
  rfl

theorem getD_replicate_lt {α : Type} (n : ℕ) (a d : α) {s : ℕ} (h : s < n) :
    (List.replicate n a).getD s d = a := by
  rw [List.getD_eq_getElem?_getD, List.getElem?_replicate, if_pos h]
  rfl

theorem naiveStateSum_nil (s : ℕ) (tau : ℚ) (t2 : ℚ) :
    naiveStateSum [] s tau t2 = 0 := by
  simp [naiveStateSum]

theorem naiveStateSum_decay (l : List (ℚ × ℕ)) (s : ℕ) (tau : ℚ)
    (t1 t2 : ℚ) :
    naiveStateSum l s tau t1 * Real.exp (-(((t2 - t1 : ℚ)) : ℝ) / (tau : ℝ)) =
      naiveStateSum l s tau t2 := by
  unfold naiveStateSum
  induction l.filter fun e => e.2 == s with
  | nil => simp
  | cons e rest ih =>
      simp only [List.map_cons, List.sum_cons, add_mul, ih]
      congr 1
      rw [← Real.exp_add]
      congr 1
      push_cast
      ring

theorem naiveStateSum_append_singleton (l : List (ℚ × ℕ)) (e : ℚ × ℕ)
    (s : ℕ) (tau : ℚ) (t2 : ℚ) :
    naiveStateSum (l ++ [e]) s tau t2 =
      naiveStateSum l s tau t2 +
        (if e.2 = s then Real.exp (-(((t2 - e.1 : ℚ)) : ℝ) / (tau : ℝ)) else 0) := by
  unfold naiveStateSum
  rw [List.filter_append]
  by_cases h : e.2 = s
  · simp [h]
  · simp [h]

/-! ## Claim C6: recursive state maintenance equals the naive sum -/

/-- C6: for every finite event list processed in non-decreasing time order
by alternating `advanceStateDecayOnly` (to the event time) and
`incrementState` (on the event's source type), and for every later query
time `t2` reached by a final `advanceStateDecayOnly`, each state component
`S[s][b]` equals the naive sum
`Σ_{events e of type s} exp (-(t2 - t_e) / tau_b)` — exactly, in the
real-arithmetic model (hence in particular to within any relative
tolerance, such as the claimed 1e-9). -/
theorem recursiveState_equals_naiveSum (numTypes numBases : ℕ)
    (taus : List ℚ) (htaus : taus.length = numBases)
    (events : List (ℚ × ℕ)) (t2 : ℚ)
    (hsorted : events.Pairwise fun a b => a.1 ≤ b.1)
    (hle : ∀ e ∈ events, e.1 ≤ t2)
    (htypes : ∀ e ∈ events, e.2 < numTypes)
    (s b : ℕ) (hs : s < numTypes) (hb : b < numBases) :
    stateEntry
      (advanceStateDecayOnly
        (processEvents taus events (initRecursiveState numTypes numBases))
        taus t2) s b
    = naiveStateSum events s (taus.getD b 0) t2 := by
  induction events using List.reverseRecOn generalizing t2 with
  | nil =>
      rw [naiveStateSum_nil]
      unfold processEvents
      simp only [List.foldl_nil]
      rw [stateEntry, advance_S_of_none _ _ _ rfl]
      unfold initRecursiveState
      simp only
      rw [getD_replicate_lt _ _ _ hs, getD_replicate_lt _ _ _ hb]
  | append_singleton l e ih =>
      have hbt : b < taus.length := htaus ▸ hb
      have hsorted' : l.Pairwise fun a b => a.1 ≤ b.1 :=
        (List.pairwise_append.mp hsorted).1
      have hlast : ∀ x ∈ l, x.1 ≤ e.1 := by
        intro x hx
        exact (List.pairwise_append.mp hsorted).2.2 x hx e (by simp)
      have htypes' : ∀ x ∈ l, x.2 < numTypes := fun x hx =>
        htypes x (by simp [hx])
      have hety : e.2 < numTypes := htypes e (by simp)
      have het2 : e.1 ≤ t2 := hle e (by simp)
      -- abbreviations for the intermediate states
      set P := processEvents taus l (initRecursiveState numTypes numBases)
        with hP
      set A := advanceStateDecayOnly P taus e.1 with hA
      set X := incrementState A e.2 1 with hX
      have hPlen : P.S.length = numTypes := by
        rw [hP, processEvents_S_length]
        simp [initRecursiveState]
      have hProw : ∀ u, u < numTypes → (P.S.getD u []).length = numBases := by
        intro u hu
        rw [hP, processEvents_row_length]
        simp only [initRecursiveState]
        rw [getD_replicate_lt _ _ _ hu]
        simp
      have hAlen : A.S.length = numTypes := by rw [hA, advance_S_length, hPlen]
      have hArow : ∀ u, u < numTypes → (A.S.getD u []).length = numBases := by
        intro u hu
        rw [hA, advance_row_length]
        exact hProw u hu
      have hXlen : X.S.length = numTypes := by rw [hX, increment_S_length, hAlen]
      have hXrow : ∀ u, u < numTypes → (X.S.getD u []).length = numBases := by
        intro u hu
        rw [hX, increment_row_length]
        exact hArow u hu
      have hXlast : X.lastTimeHours = some e.1 := by
        rw [hX, increment_lastTime, hA, advance_lastTime]
      rw [processEvents_append_singleton, ← hP, ← hA, ← hX]
      have hXentry : stateEntry
          (advanceStateDecayOnly X taus t2) s b =
          stateEntry X s b *
            decayFactor (t2 - e.1) (taus.get ⟨b, hbt⟩) := by
        exact advance_entry X taus t2 e.1 hXlast het2 s b
          (by rw [hXlen]; exact hs) (by rw [hXrow s hs]; exact hb) hbt
      rw [hXentry]
      have hIH : stateEntry A s b = naiveStateSum l s (taus.getD b 0) e.1 :=
        ih e.1 hsorted' hlast htypes'
      have hget : taus.get ⟨b, hbt⟩ = taus.getD b 0 := by
        rw [List.getD_eq_getElem?_getD, List.getElem?_eq_getElem hbt]
        rfl
      rw [naiveStateSum_append_singleton]
      by_cases hse : e.2 = s
      · subst hse
        have : stateEntry X e.2 b = stateEntry A e.2 b + 1 := by
          rw [hX]
          exact increment_entry_same A e.2 1 b (by rw [hAlen]; exact hs)
            (by rw [hArow e.2 hs]; exact hb)
        rw [this, hIH, hget, add_mul, if_pos rfl, one_mul, decayFactor,
          naiveStateSum_decay]
      · have : stateEntry X s b = stateEntry A s b := by
          rw [hX]
          exact increment_entry_other A e.2 1 s b (fun hc => hse hc.symm)
        rw [this, hIH, hget, if_neg hse, add_zero, decayFactor,
          naiveStateSum_decay]

/-- Witness for C6: one event of type 0 at time 0 with query time 1 h and
`tau = 1`; the maintained component equals `exp (-1)`, the naive sum. -/
theorem recursiveState_equals_naiveSum_witness :
    stateEntry
      (advanceStateDecayOnly
        (processEvents [1] [((0 : ℚ), 0)] (initRecursiveState 1 1)) [1] 1) 0 0
    = naiveStateSum [((0 : ℚ), 0)] 0 1 1 := by
  exact recursiveState_equals_naiveSum 1 1 [1] rfl [((0 : ℚ), 0)] 1
    (by simp) (by norm_num) (by norm_num) 0 0 (by norm_num) (by norm_num)

/-! ## Claim C10: the frame behaviour of `advanceStateDecayOnly` -/

/-- C10: `advanceStateDecayOnly` multiplies the state vectors by decay
factors only when the new time is strictly greater than a finite
`lastTimeHours`; when the new time is not greater, or `lastTimeHours` is
non-finite, every component is left unchanged; and in all cases
`lastTimeHours` is unconditionally set to the new time (so it can move
backwards without any decay being applied). -/
theorem advanceStateDecayOnly_frame (state : RecursiveState) (taus : List ℚ)
    (t1 : ℚ) :
    (advanceStateDecayOnly state taus t1).lastTimeHours = some t1 ∧
    (state.lastTimeHours = none →
      (advanceStateDecayOnly state taus t1).S = state.S) ∧
    (∀ t0, state.lastTimeHours = some t0 → t1 ≤ t0 →
      (advanceStateDecayOnly state taus t1).S = state.S) ∧
    (∀ t0, state.lastTimeHours = some t0 → t0 < t1 →
      (advanceStateDecayOnly state taus t1).S = state.S.map fun row =>
        row.mapIdx fun b x =>
          if hb : b < taus.length then
            x * decayFactor (t1 - t0) (taus.get ⟨b, hb⟩)
          else x) := by
  refine ⟨advance_lastTime state taus t1, ?_, ?_, ?_⟩
  · exact advance_S_of_none state taus t1
  · intro t0 h hle
    exact advance_S_of_not_lt state taus t1 t0 h hle
  · intro t0 h hlt
    exact advance_S_of_lt state taus t1 t0 h hlt

/-- Witness for C10: advancing a state whose recorded time is 3 h backwards
to 2 h records the new time and leaves the components untouched. -/
theorem advanceStateDecayOnly_frame_witness :
    (advanceStateDecayOnly ⟨[[2]], some 3⟩ [1] 2).lastTimeHours = some 2 ∧
    (advanceStateDecayOnly ⟨[[2]], some 3⟩ [1] 2).S = [[2]] :=
  ⟨(advanceStateDecayOnly_frame ⟨[[2]], some 3⟩ [1] 2).1,
   (advanceStateDecayOnly_frame ⟨[[2]], some 3⟩ [1] 2).2.2.1 3 rfl (by norm_num)⟩

/-! ## Helper lemmas about index-set folds -/

theorem foldl_set_length {α : Type} (l0 : List α) (idx : ℕ → ℕ) (f : ℕ → α)
    (ks : List ℕ) :
    (ks.foldl (fun l k => l.set (idx k) (f k)) l0).length = l0.length := by
  induction ks generalizing l0 with
  | nil => rfl
  | cons k rest ih => simp only [List.foldl_cons]; rw [ih, List.length_set]

theorem foldl_set_getD (l0 : List ℝ) (w : ℕ) (hw : 0 < w) (f : ℕ → ℝ)
    (n : ℕ) (hrange : ∀ k, k < n → k * w < l0.length) (j : ℕ) :
    ((List.range n).foldl (fun l k => l.set (k * w) (f k)) l0).getD j 0 =
      if ∃ k, k < n ∧ j = k * w then f (j / w) else l0.getD j 0 := by
  induction n with
  | zero => simp
  | succ n ih =>
      rw [List.range_succ, List.foldl_append]
      simp only [List.foldl_cons, List.foldl_nil]
      have hlen := foldl_set_length l0 (fun k => k * w) f (List.range n)
      by_cases hj : j = n * w
      · subst hj
        rw [listGetD_set_self _ _ _ _
          (by rw [hlen]; exact hrange n (Nat.lt_succ_self n))]
        rw [if_pos ⟨n, Nat.lt_succ_self n, rfl⟩, Nat.mul_div_cancel _ hw]
      · rw [listGetD_set_ne _ _ _ (fun hc => hj hc.symm)]
        rw [ih (fun k hk => hrange k (Nat.lt_succ_of_lt hk))]
        by_cases hex : ∃ k, k < n ∧ j = k * w
        · rcases hex with ⟨k, hk, rfl⟩
          rw [if_pos ⟨k, hk, rfl⟩, if_pos ⟨k, Nat.lt_succ_of_lt hk, rfl⟩]
        · rw [if_neg hex, if_neg ?_]
          rintro ⟨k, hk, rfl⟩
          rcases Nat.lt_succ_iff_lt_or_eq.mp hk with hk | rfl
          · exact hex ⟨k, hk, rfl⟩
          · exact hj rfl

theorem getD_replicate_zero (n j : ℕ) :
    (List.replicate n (0 : ℝ)).getD j 0 = 0 := by
  by_cases h : j < n
  · exact getD_replicate_lt n 0 0 h
  · rw [List.getD_eq_getElem?_getD,
      List.getElem?_eq_none (by simpa using le_of_not_lt h)]
    rfl

/-! ## Claim C5: the initial parameter seeding -/

/-- C5 (amended): `initParamsFromData` sets the baseline intercept of each
type `k` to `log ((count_k + 0.5) / max (totalObservedHours, 1e-6))` — the
source clamps the denominator below by `1e-6`, not by `1` as the claim
states — and leaves every other beta entry and every theta entry zero. -/
theorem initParamsFromData_spec (numTypes numBases : ℕ)
    (countsByType : List ℚ) (totalObservedHours : ℚ) :
    (∀ k, k < numTypes →
      (initParamsFromData numTypes numBases countsByType
        totalObservedHours).beta.getD (k * NUM_BASELINE_FEATURES) 0 =
      Real.log ((((countsByType.getD k 0 + 1/2) /
        max totalObservedHours (1/1000000) : ℚ)) : ℝ)) ∧
    (∀ j, (¬ ∃ k, k < numTypes ∧ j = k * NUM_BASELINE_FEATURES) →
      (initParamsFromData numTypes numBases countsByType
        totalObservedHours).beta.getD j 0 = 0) ∧
    (∀ k i, ((initParamsFromData numTypes numBases countsByType
        totalObservedHours).theta.getD k []).getD i 0 = 0) := by
  have hw : 0 < NUM_BASELINE_FEATURES := by norm_num [NUM_BASELINE_FEATURES]
  have hrange : ∀ k, k < numTypes →
      k * NUM_BASELINE_FEATURES <
        (List.replicate (numTypes * NUM_BASELINE_FEATURES) (0 : ℝ)).length := by
    intro k hk
    simpa using (Nat.mul_lt_mul_right hw).mpr hk
  refine ⟨?_, ?_, ?_⟩
  · intro k hk
    unfold initParamsFromData initParams
    simp only
    rw [foldl_set_getD _ _ hw _ _ hrange, if_pos ⟨k, hk, rfl⟩,
      Nat.mul_div_cancel _ hw]
  · intro j hj
    unfold initParamsFromData initParams
    simp only
    rw [foldl_set_getD _ _ hw _ _ hrange, if_neg hj, getD_replicate_zero]
  · intro k i
    unfold initParamsFromData initParams
    simp only
    by_cases hk : k < numTypes
    · rw [getD_replicate_lt _ _ _ hk, getD_replicate_zero]
    · have hrow : (List.replicate numTypes
          (List.replicate (numTypes * numBases) (0 : ℝ))).getD k [] = [] := by
        rw [List.getD_eq_getElem?_getD,
          List.getElem?_eq_none (by simpa using le_of_not_lt hk)]
        rfl
      rw [hrow]
      rfl

/-- Witness for C5: with one type, 3 events and 2 observed hours the
intercept is `log ((3 + 0.5) / max (2, 1e-6)) = log (7/4)` and the theta
entries are zero. -/
theorem initParamsFromData_spec_witness :
    (initParamsFromData 1 1 [3] 2).beta.getD 0 0 = Real.log ((7/4 : ℚ) : ℝ) ∧
    ((initParamsFromData 1 1 [3] 2).theta.getD 0 []).getD 0 0 = 0 := by
  constructor
  · have h := (initParamsFromData_spec 1 1 [3] 2).1 0 (by norm_num)
    simp only [Nat.zero_mul] at h
    rw [h]
    norm_num
  · exact (initParamsFromData_spec 1 1 [3] 2).2.2 0 0

/-- Counterexample for C5 as stated: with `totalObservedHours = 1/2` the
source intercept is `log ((0 + 0.5) / max (0.5, 1e-6)) = log 1 = 0`,
whereas the claimed formula `log ((0 + 0.5) / max (1, 0.5)) = log (1/2)`
is negative. -/
theorem initParamsFromData_claim_counterexample :
    ¬ ((initParamsFromData 1 1 [0] (1/2)).beta.getD 0 0 =
      Real.log ((((0 : ℚ) + 1/2) / max 1 (1/2) : ℚ) : ℝ)) := by
  have hw : 0 < NUM_BASELINE_FEATURES := by norm_num [NUM_BASELINE_FEATURES]
  have hrange : ∀ k, k < 1 →
      k * NUM_BASELINE_FEATURES <
        (List.replicate (1 * NUM_BASELINE_FEATURES) (0 : ℝ)).length := by
    intro k hk
    interval_cases k
    simp [NUM_BASELINE_FEATURES]
  have hcode : (initParamsFromData 1 1 [0] (1/2)).beta.getD 0 0 = 0 := by
    unfold initParamsFromData initParams
    simp only
    rw [show (0 : ℕ) = 0 * NUM_BASELINE_FEATURES from rfl,
      foldl_set_getD _ _ hw _ _ hrange, if_pos ⟨0, Nat.one_pos, rfl⟩]
    have hrate : ((([0] : List ℚ).getD (0 * NUM_BASELINE_FEATURES /
        NUM_BASELINE_FEATURES) 0 + 1/2) / max (1/2) (1/1000000) : ℚ) = 1 := by
      norm_num
    rw [hrate]
    simp
  rw [hcode]
  intro hcontra
  have hneg : Real.log ((((0 : ℚ) + 1/2) / max 1 (1/2) : ℚ) : ℝ) < 0 := by
    have : ((((0 : ℚ) + 1/2) / max 1 (1/2) : ℚ) : ℝ) = 1/2 := by norm_num
    rw [this]
    exact Real.log_neg (by norm_num) (by norm_num)
  rw [← hcontra] at hneg
  exact lt_irrefl 0 hneg

/-! ## Claim C3: the 50 %-mass time -/

theorem findMassTimeLoop_first (contrib lagOf : ℕ → ℝ) (target : ℝ)
    (n k : ℕ) (hk : k < n)
    (hreach : target ≤ ∑ i ∈ Finset.range (k + 1), contrib i)
    (hbefore : ∀ j, j < k →
      (∑ i ∈ Finset.range (j + 1), contrib i) < target) :
    findMassTimeLoop contrib lagOf target (List.range n) 0 = some (lagOf k) := by
  have aux : ∀ d m, m + d = n → m ≤ k →
      findMassTimeLoop contrib lagOf target (List.range' m d)
        (∑ i ∈ Finset.range m, contrib i) = some (lagOf k) := by
    intro d
    induction d with
    | zero =>
        intro m hmn hmk
        omega
    | succ d ih =>
        intro m hmn hmk
        rw [List.range'_succ]
        unfold findMassTimeLoop
        simp only
        rw [← Finset.sum_range_succ]
        by_cases hreached : target ≤ ∑ i ∈ Finset.range (m + 1), contrib i
        · rw [if_pos hreached]
          rcases lt_or_eq_of_le hmk with hlt | rfl
          · exact absurd hreached (not_le.mpr (hbefore m hlt))
          · rfl
        · rw [if_neg hreached]
          rcases lt_or_eq_of_le hmk with hlt | rfl
          · exact ih (m + 1) (by omega) hlt
          · exact absurd hreach hreached
  have h0 : (0 : ℝ) = ∑ i ∈ Finset.range 0, contrib i := by simp
  rw [List.range_eq_range', h0]
  exact aux n 0 (by omega) (Nat.zero_le k)

/-- C3: `findMassTime` with fraction 0.5 returns 0 (with zero reported
total) whenever the total absolute integral `|∫ g|` over 168 h is below
1e-10, and otherwise returns the first lag of the 500-point logarithmic
grid from 1/60 h to 168 h at which the cumulative absolute mass
`Σ |g(lag_i)| (lag_{i+1} - lag_i)` reaches 50 % of that total absolute
integral. -/
theorem findMassTime_spec (theta : List ℝ) (taus : List ℚ) :
    (|integratedEffect theta taus 168| < 1e-10 →
      findMassTime theta taus (1/2) 168 500 = (0, 0)) ∧
    (∀ k, k < 500 →
      (1e-10 : ℝ) ≤ |integratedEffect theta taus 168| →
      |integratedEffect theta taus 168| * (1/2) ≤
        ∑ i ∈ Finset.range (k + 1), massContrib theta taus 168 500 i →
      (∀ j, j < k →
        (∑ i ∈ Finset.range (j + 1), massContrib theta taus 168 500 i) <
          |integratedEffect theta taus 168| * (1/2)) →
      (findMassTime theta taus (1/2) 168 500).1 =
        massGridLag 168 500 k * (MS_PER_HOUR : ℝ)) := by
  constructor
  · intro h
    unfold findMassTime
    rw [if_pos h]
  · intro k hk h10 hreach hbefore
    unfold findMassTime
    rw [if_neg (not_lt.mpr h10)]
    have hloop := findMassTimeLoop_first (massContrib theta taus 168 500)
      (massGridLag 168 500) (|integratedEffect theta taus 168| * (1/2))
      500 k hk hreach hbefore
    simp only [hloop]

/-- Witness for C3: the zero weight vector over the first six basis
timescales has zero total integral, so `findMassTime` returns `(0, 0)`. -/
theorem findMassTime_spec_witness :
    findMassTime (List.replicate 6 0) (createExponentialBasis.taus.take 6)
      (1/2) 168 500 = (0, 0) := by
  apply (findMassTime_spec (List.replicate 6 0)
    (createExponentialBasis.taus.take 6)).1
  have hzero : integratedEffect (List.replicate 6 0)
      (createExponentialBasis.taus.take 6) 168 = 0 := by
    unfold integratedEffect
    refine Finset.sum_eq_zero ?_
    intro b _
    rw [getD_replicate_zero]
    ring
  rw [hzero]
  norm_num

/-! ## Claim C1: direction of the emitted influence edges -/

theorem findPeakLag_foldl_no_update (theta : List ℝ) (taus : List ℚ)
    (maxLagHours : ℚ) (resolution : ℕ) (acc0 : ℝ × ℝ × ℝ)
    (l : List ℕ)
    (h : ∀ i ∈ l,
      |evaluateInfluenceCurve theta taus (peakGridLag maxLagHours resolution i)| ≤
        acc0.2.2) :
    l.foldl
      (fun (acc : ℝ × ℝ × ℝ) i =>
        let lagHours := peakGridLag maxLagHours resolution i
        let g := evaluateInfluenceCurve theta taus lagHours
        if acc.2.2 < |g| then (lagHours, g, |g|) else acc)
      acc0 = acc0 := by
  induction l with
  | nil => rfl
  | cons i rest ih =>
      simp only [List.foldl_cons]
      rw [if_neg (not_lt.mpr (h i (by simp)))]
      exact ih fun j hj => h j (by simp [hj])

theorem findPeakLag_stays_at_min (theta : List ℝ) (taus : List ℚ)
    (maxLagHours : ℚ) (resolution : ℕ)
    (h : ∀ i, i < resolution →
      |evaluateInfluenceCurve theta taus (peakGridLag maxLagHours resolution i)| ≤
        |evaluateInfluenceCurve theta taus ((5/60 : ℚ) : ℝ)|) :
    findPeakLag theta taus maxLagHours resolution =
      (((5/60 : ℚ) : ℝ) * (MS_PER_HOUR : ℝ),
        evaluateInfluenceCurve theta taus ((5/60 : ℚ) : ℝ)) := by
  unfold findPeakLag
  have hfold := findPeakLag_foldl_no_update theta taus maxLagHours resolution
    (((5/60 : ℚ) : ℝ), evaluateInfluenceCurve theta taus ((5/60 : ℚ) : ℝ),
      |evaluateInfluenceCurve theta taus ((5/60 : ℚ) : ℝ)|)
    (List.range resolution)
    (fun i hi => h i (List.mem_range.mp hi))
  simp only [hfold]

theorem eval_ce1 (lagHours : ℝ) (hpos : 0 < lagHours) :
    evaluateInfluenceCurve [1] [5/60] lagHours =
      Real.exp (-lagHours / ((5/60 : ℚ) : ℝ)) := by
  unfold evaluateInfluenceCurve exponentialKernel
  simp only [List.length_singleton, Finset.sum_range_one, List.getD_cons_zero]
  rw [if_neg (not_le.mpr hpos)]
  ring

theorem eval_ce1_minlag :
    evaluateInfluenceCurve [1] [5/60] ((5/60 : ℚ) : ℝ) = Real.exp (-1) := by
  have hpos : (0 : ℝ) < ((5/60 : ℚ) : ℝ) := by norm_num
  rw [eval_ce1 _ hpos]
  congr 1
  rw [neg_div]
  rw [div_self (ne_of_gt hpos)]

theorem peakGridLag_ge_min (maxLagHours : ℚ) (resolution i : ℕ)
    (hmax : (1 : ℝ) ≤ ((maxLagHours : ℝ) / ((5/60 : ℚ) : ℝ))) :
    ((5/60 : ℚ) : ℝ) ≤ peakGridLag maxLagHours resolution i := by
  unfold peakGridLag
  have hrpow : (1 : ℝ) ≤
      ((maxLagHours : ℝ) / ((5/60 : ℚ) : ℝ)) ^
        ((i : ℝ) / (max 1 (resolution - 1) : ℕ)) :=
    Real.one_le_rpow hmax (by positivity)
  nlinarith [hrpow]

theorem exp_one_lt_ten : Real.exp 1 < 10 :=
  lt_trans Real.exp_one_lt_d9 (by norm_num)

theorem point_one_lt_exp_neg_one : (0.1 : ℝ) < Real.exp (-1) := by
  rw [Real.exp_neg, show (0.1 : ℝ) = 10⁻¹ by norm_num]
  exact inv_strictAnti₀ (Real.exp_pos 1) exp_one_lt_ten

theorem extract_ceFit1_mem :
    ceEdge1 ∈ extractAllInfluenceEdges ceFit1 (1/10) := by
  have hw01 : extractInfluenceWeights ceFit1 0 1 = [1] := rfl
  have hratio : ((7 * 24 : ℚ) : ℝ) / ((5/60 : ℚ) : ℝ) = 2016 := by
    push_cast
    norm_num
  have hbound : ∀ i, i < 200 →
      |evaluateInfluenceCurve [1] [5/60] (peakGridLag (7 * 24) 200 i)| ≤
        |evaluateInfluenceCurve [1] [5/60] ((5/60 : ℚ) : ℝ)| := by
    intro i _
    have hc : (0 : ℝ) < ((5/60 : ℚ) : ℝ) := by norm_num
    have hmax : (1 : ℝ) ≤ ((7 * 24 : ℚ) : ℝ) / ((5/60 : ℚ) : ℝ) := by
      rw [hratio]; norm_num
    have hge := peakGridLag_ge_min (7 * 24) 200 i hmax
    have hpos : (0 : ℝ) < peakGridLag (7 * 24) 200 i := lt_of_lt_of_le hc hge
    rw [eval_ce1 _ hpos, eval_ce1_minlag, abs_of_pos (Real.exp_pos _),
      abs_of_pos (Real.exp_pos _)]
    apply Real.exp_le_exp.mpr
    rw [div_le_iff₀ hc]
    nlinarith [hge]
  have hpk : findPeakLag [1] [5/60] (7 * 24) 200 =
      (((5/60 : ℚ) : ℝ) * (MS_PER_HOUR : ℝ), Real.exp (-1)) := by
    rw [findPeakLag_stays_at_min [1] [5/60] (7 * 24) 200 hbound,
      eval_ce1_minlag]
  have hnotlt : ¬ ((0 : ℝ) + |(1 : ℝ)| < 1/10) := by
    rw [abs_one]; norm_num
  have hint : integratedEffect [1] [5/60] (7 * 24) =
      (1/12 : ℝ) * (1 - Real.exp (-2016)) := by
    unfold integratedEffect
    simp only [List.length_singleton, Finset.sum_range_one, List.getD_cons_zero]
    rw [show -((7 * 24 : ℚ) : ℝ) / ((5/60 : ℚ) : ℝ) = -2016 by
      rw [neg_div, hratio]]
    norm_num
  have hms : ((5/60 : ℚ) : ℝ) * ((MS_PER_HOUR : ℚ) : ℝ) = 300000 := by
    unfold MS_PER_HOUR
    push_cast
    norm_num
  unfold extractAllInfluenceEdges
  rw [mem_jsSortBy]
  rw [List.mem_flatMap]
  refine ⟨0, by norm_num [ceFit1], ?_⟩
  rw [List.mem_filterMap]
  refine ⟨1, by norm_num [ceFit1], ?_⟩
  rw [if_neg (by norm_num : ¬ (0 : ℕ) = 1)]
  simp only [hw01, List.foldl_cons, List.foldl_nil]
  rw [if_neg hnotlt]
  rw [show createExponentialBasis.taus.take ceFit1.params.numBases = [5/60]
    from rfl]
  simp only [hpk, hint]
  rw [if_pos point_one_lt_exp_neg_one]
  simp only [Option.some.injEq]
  unfold ceEdge1
  rw [show ceFit1.typeNames.getD 0 "" = "A" from rfl,
    show ceFit1.typeNames.getD 1 "" = "B" from rfl]
  rw [hms]
  rw [abs_one]
  norm_num

/-- C1 (amended): for every influence edge emitted by
`extractAllInfluenceEdges` (summarize.ts, the variant the worker imports),
the direction field is `excite` if the edge's **peakEffect** is greater
than 0.1, `inhibit` if it is less than -0.1, and `neutral` otherwise — the
source applies the thresholds to the curve value at the peak lag, not to
`integratedEffect` as the claim states; in particular, for any edge
reported `excite`, `peakEffect > 0`, and the reported `hazardRatioAtPeak`
equals `exp peakEffect` exactly. -/
theorem extractAllInfluenceEdges_direction (fit : FullModelFit)
    (minStrength : ℝ) (e : InfluenceEdge)
    (hmem : e ∈ extractAllInfluenceEdges fit minStrength) :
    (e.direction = if (0.1 : ℝ) < e.peakEffect then Direction.excite
      else if e.peakEffect < -0.1 then Direction.inhibit
      else Direction.neutral) ∧
    (e.direction = Direction.excite → 0 < e.peakEffect) ∧
    e.hazardRatioAtPeak = Real.exp e.peakEffect := by
  unfold extractAllInfluenceEdges at hmem
  rw [mem_jsSortBy] at hmem
  rw [List.mem_flatMap] at hmem
  obtain ⟨src, _, hmem⟩ := hmem
  rw [List.mem_filterMap] at hmem
  obtain ⟨tgt, _, hsome⟩ := hmem
  by_cases hst : src = tgt
  · rw [if_pos hst] at hsome
    exact absurd hsome (by simp)
  rw [if_neg hst] at hsome
  by_cases hms : (extractInfluenceWeights fit src tgt).foldl
      (fun sum w => sum + |w|) 0 < minStrength
  · rw [if_pos hms] at hsome
    exact absurd hsome (by simp)
  rw [if_neg hms] at hsome
  simp only [Option.some.injEq] at hsome
  subst hsome
  refine ⟨rfl, ?_, rfl⟩
  intro hdir
  by_cases h1 : (0.1 : ℝ) <
      (findPeakLag (extractInfluenceWeights fit src tgt)
        (createExponentialBasis.taus.take fit.params.numBases) (7 * 24) 200).2
  · calc (0 : ℝ) < 0.1 := by norm_num
    _ < _ := h1
  · exfalso
    simp only [if_neg h1] at hdir
    by_cases h2 : (findPeakLag (extractInfluenceWeights fit src tgt)
        (createExponentialBasis.taus.take fit.params.numBases) (7 * 24) 200).2 <
        -0.1
    · rw [if_pos h2] at hdir
      exact Direction.noConfusion hdir
    · rw [if_neg h2] at hdir
      exact Direction.noConfusion hdir

/-- Witness for C1: the single edge emitted for `ceFit1` satisfies the
amended direction law. -/
theorem extractAllInfluenceEdges_direction_witness :
    (ceEdge1.direction = if (0.1 : ℝ) < ceEdge1.peakEffect then Direction.excite
      else if ceEdge1.peakEffect < -0.1 then Direction.inhibit
      else Direction.neutral) ∧
    (ceEdge1.direction = Direction.excite → 0 < ceEdge1.peakEffect) ∧
    ceEdge1.hazardRatioAtPeak = Real.exp ceEdge1.peakEffect :=
  extractAllInfluenceEdges_direction ceFit1 (1/10) ceEdge1 extract_ceFit1_mem

/-- Counterexample for C1 as stated: `extractAllInfluenceEdges` emits for
`ceFit1` an edge whose `integratedEffect` lies inside `[-0.1, 0.1]` (so the
claimed integrated-effect rule would make it `neutral`), yet whose
direction is `excite`, because the source derives the direction from the
peak value `exp (-1) > 0.1`. -/
theorem extractAllInfluenceEdges_claim_counterexample :
    ceEdge1 ∈ extractAllInfluenceEdges ceFit1 (1/10) ∧
    ceEdge1.direction = Direction.excite ∧
    ceEdge1.integratedEffect ≤ 0.1 ∧ (-0.1 : ℝ) ≤ ceEdge1.integratedEffect := by
  refine ⟨extract_ceFit1_mem, rfl, ?_, ?_⟩
  · show (1/12 : ℝ) * (1 - Real.exp (-2016)) ≤ 0.1
    nlinarith [Real.exp_pos (-2016 : ℝ)]
  · show (-0.1 : ℝ) ≤ (1/12 : ℝ) * (1 - Real.exp (-2016))
    have h1 : Real.exp (-2016 : ℝ) ≤ 1 := by
      rw [show (1 : ℝ) = Real.exp 0 from (Real.exp_zero).symm]
      exact Real.exp_le_exp.mpr (by norm_num)
    nlinarith

/-! ## Claim C4: lemmas about the JavaScript remainder chain -/

theorem jsTrunc_of_nonneg {x : ℝ} (h : 0 ≤ x) : jsTrunc x = ⌊x⌋ := by
  unfold jsTrunc
  rw [if_neg (not_lt.mpr h)]

theorem jsRem_of_nonneg_lt {a b : ℝ} (hb : 0 < b) (h0 : 0 ≤ a) (hab : a < b) :
    jsRem a b = a := by
  unfold jsRem
  rw [jsTrunc_of_nonneg (div_nonneg h0 hb.le)]
  rw [Int.floor_eq_zero_iff.mpr ⟨div_nonneg h0 hb.le, by
    rw [div_lt_one hb]; exact hab⟩]
  simp

theorem jsRem_of_ge_lt_two {a b : ℝ} (hb : 0 < b) (h1 : b ≤ a)
    (h2 : a < 2 * b) : jsRem a b = a - b := by
  unfold jsRem
  have h0 : (0 : ℝ) ≤ a / b := div_nonneg (le_trans hb.le h1) hb.le
  rw [jsTrunc_of_nonneg h0]
  have hfloor : ⌊a / b⌋ = 1 := by
    apply Int.floor_eq_iff.mpr
    constructor
    · push_cast
      rw [le_div_iff₀ hb]
      linarith
    · push_cast
      rw [div_lt_iff₀ hb]
      linarith
  rw [hfloor]
  push_cast
  ring

theorem jsRem_lt_of_pos {b : ℝ} (hb : 0 < b) (a : ℝ) :
    jsRem a b < b ∧ -b < jsRem a b := by
  unfold jsRem jsTrunc
  have hab : b * (a / b) = a := by field_simp
  by_cases h : a / b < 0
  · rw [if_pos h]
    have hle : a / b ≤ (⌈a / b⌉ : ℝ) := Int.le_ceil _
    have hlt : ((⌈a / b⌉ : ℤ) : ℝ) < a / b + 1 := Int.ceil_lt_add_one _
    have h1 : b * (a / b) ≤ b * (⌈a / b⌉ : ℝ) := by
      exact mul_le_mul_of_nonneg_left hle hb.le
    have h2 : b * (⌈a / b⌉ : ℝ) < b * (a / b + 1) := by
      exact mul_lt_mul_of_pos_left hlt hb
    constructor
    · nlinarith
    · nlinarith
  · rw [if_neg h]
    push_neg at h
    have hle : ((⌊a / b⌋ : ℤ) : ℝ) ≤ a / b := Int.floor_le _
    have hlt : a / b < (⌊a / b⌋ : ℝ) + 1 := Int.lt_floor_add_one _
    have h1 : b * (⌊a / b⌋ : ℝ) ≤ b * (a / b) := by
      exact mul_le_mul_of_nonneg_left hle hb.le
    have h2 : b * (a / b) < b * ((⌊a / b⌋ : ℝ) + 1) := by
      exact mul_lt_mul_of_pos_left hlt hb
    constructor
    · nlinarith
    · nlinarith

theorem jsRem_nonneg {a b : ℝ} (hb : 0 < b) (h0 : 0 ≤ a) : 0 ≤ jsRem a b := by
  unfold jsRem
  rw [jsTrunc_of_nonneg (div_nonneg h0 hb.le)]
  have hab : b * (a / b) = a := by field_simp
  have hle : ((⌊a / b⌋ : ℤ) : ℝ) ≤ a / b := Int.floor_le _
  have h1 : b * (⌊a / b⌋ : ℝ) ≤ b * (a / b) :=
    mul_le_mul_of_nonneg_left hle hb.le
  linarith

/-- The double-remainder normalisation `((x % b) + b) % b` lies in
`[0, b)`. -/
theorem jsRemChain_bounds {b : ℝ} (hb : 0 < b) (x : ℝ) :
    0 ≤ jsRem (jsRem x b + b) b ∧ jsRem (jsRem x b + b) b < b := by
  have hm := jsRem_lt_of_pos hb x
  have h0 : 0 ≤ jsRem x b + b := by linarith [hm.2]
  exact ⟨jsRem_nonneg hb h0, (jsRem_lt_of_pos hb (jsRem x b + b)).1⟩

/-- The double-remainder normalisation `((x % b) + b) % b` equals the
mathematical floor-based modulo. -/
theorem jsRemChain_eq_realMod {b : ℝ} (hb : 0 < b) (x : ℝ) :
    jsRem (jsRem x b + b) b = realMod x b := by
  have hL := jsRemChain_bounds hb x
  have hRle : ((⌊x / b⌋ : ℤ) : ℝ) ≤ x / b := Int.floor_le _
  have hRlt : x / b < (⌊x / b⌋ : ℝ) + 1 := Int.lt_floor_add_one _
  have hab : b * (x / b) = x := by field_simp
  have hR0 : 0 ≤ realMod x b := by
    unfold realMod
    have := mul_le_mul_of_nonneg_left hRle hb.le
    linarith
  have hRb : realMod x b < b := by
    unfold realMod
    have := mul_lt_mul_of_pos_left hRlt hb
    linarith
  -- both sides differ from x by an integer multiple of b
  have hdiff : jsRem (jsRem x b + b) b - realMod x b =
      b * ((⌊x / b⌋ - (jsTrunc (x / b) + jsTrunc ((jsRem x b + b) / b) - 1) : ℤ) : ℝ) := by
    unfold jsRem realMod
    push_cast
    ring
  set K : ℤ := ⌊x / b⌋ - (jsTrunc (x / b) + jsTrunc ((jsRem x b + b) / b) - 1)
    with hK
  have habs : |jsRem (jsRem x b + b) b - realMod x b| < b := by
    rw [abs_lt]
    constructor <;> nlinarith [hL.1, hL.2, hR0, hRb]
  rw [hdiff] at habs
  have habsK : |(K : ℝ)| < 1 := by
    rw [abs_mul, abs_of_pos hb] at habs
    by_contra hcon
    push_neg at hcon
    nlinarith [abs_nonneg ((K : ℝ))]
  have hK0 : K = 0 := by
    have h1 := abs_lt.mp habsK
    have h2 : (-1 : ℤ) < K := by exact_mod_cast h1.1
    have h3 : K < 1 := by exact_mod_cast h1.2
    omega
  have := hdiff
  rw [hK0] at this
  simp at this
  linarith [this]

/-- C4 (amended): every `BaselineSummary` produced by
`extractBaselineSummaries` has `hourPeakTime ∈ [0, 24)` and a `dowPeakDay`
equal to `round ((7 - 7 dowPhase / (2π)) mod 7)` with
`dowPhase = atan2 (beta[k,5], beta[k,6])` — but the rounded value is an
integer in `{0, ..., 7}`, not `{0, ..., 6}` as the claim states: when the
argument of `round` falls in `[6.5, 7)` the source produces 7. -/
theorem extractBaselineSummaries_ranges (fit : FullModelFit)
    (s : BaselineSummary) (hmem : s ∈ extractBaselineSummaries fit) :
    (0 ≤ s.hourPeakTime ∧ s.hourPeakTime < 24) ∧
    (∃ k, k < fit.typeNames.length ∧
      s.dowPeakDay = jsRound (realMod
        (7 - jsAtan2 (fit.params.beta.getD (k * 7 + 5) 0)
          (fit.params.beta.getD (k * 7 + 6) 0) * 7 / (2 * Real.pi)) 7)) ∧
    (∃ n : ℤ, s.dowPeakDay = (n : ℝ) ∧ 0 ≤ n ∧ n ≤ 7) := by
  unfold extractBaselineSummaries at hmem
  rw [List.mem_filterMap] at hmem
  obtain ⟨k, hk, hsome⟩ := hmem
  by_cases hhas : fit.targetResults.any (fun e => e.1 == k) = true
  swap
  · rw [if_neg hhas] at hsome
    exact absurd hsome (by simp)
  rw [if_pos hhas] at hsome
  simp only [Option.some.injEq] at hsome
  subst hsome
  refine ⟨?_, ?_, ?_⟩
  · exact jsRemChain_bounds (by norm_num) _
  · refine ⟨k, List.mem_range.mp hk, ?_⟩
    simp only
    rw [jsRemChain_eq_realMod (by norm_num)]
  · simp only
    set x := jsRem (jsRem (7 - jsAtan2 (fit.params.beta.getD (k * 7 + 5) 0)
      (fit.params.beta.getD (k * 7 + 6) 0) * 7 / (2 * Real.pi)) 7 + 7) 7
      with hx
    have hb := jsRemChain_bounds (show (0:ℝ) < 7 by norm_num)
      (7 - jsAtan2 (fit.params.beta.getD (k * 7 + 5) 0)
        (fit.params.beta.getD (k * 7 + 6) 0) * 7 / (2 * Real.pi))
    rw [← hx] at hb
    refine ⟨⌊x + 1/2⌋, rfl, ?_, ?_⟩
    · apply Int.floor_nonneg.mpr
      linarith [hb.1]
    · have : x + 1/2 < 8 := by linarith [hb.2]
      have hfl : (⌊x + 1/2⌋ : ℝ) ≤ x + 1/2 := Int.floor_le _
      by_contra hcon
      push_neg at hcon
      have h8 : (8 : ℤ) ≤ ⌊x + 1/2⌋ := hcon
      have : (8 : ℝ) ≤ (⌊x + 1/2⌋ : ℝ) := by exact_mod_cast h8
      linarith

theorem jsAtan2_zero_zero : jsAtan2 0 0 = 0 := by
  unfold jsAtan2
  norm_num

theorem jsAtan2_one_three : jsAtan2 1 3 = Real.arctan (1/3) := by
  unfold jsAtan2
  rw [if_pos (by norm_num : (0:ℝ) < 3)]

theorem arctan_third_pos : 0 < Real.arctan (1/3) := by
  rw [show (0 : ℝ) = Real.arctan 0 by rw [Real.arctan_zero]]
  exact Real.arctan_strictMono (by norm_num)

theorem arctan_third_lt : Real.arctan (1/3) < 1/3 := by
  have h1 : 0 < Real.arctan (1/3) := arctan_third_pos
  have h2 : Real.arctan (1/3) < Real.pi / 2 := Real.arctan_lt_pi_div_two _
  have h3 := Real.lt_tan h1 h2
  rw [Real.tan_arctan] at h3
  exact h3

theorem ceFit4_dowArg_bounds :
    (13/2 : ℝ) < 7 - Real.arctan (1/3) * 7 / (2 * Real.pi) ∧
      7 - Real.arctan (1/3) * 7 / (2 * Real.pi) < 7 := by
  have hpi : (3 : ℝ) < Real.pi := Real.pi_gt_three
  have h2pi : (0 : ℝ) < 2 * Real.pi := by linarith
  have hfrac : Real.arctan (1/3) * 7 / (2 * Real.pi) < 1/2 := by
    rw [div_lt_iff₀ h2pi]
    nlinarith [arctan_third_lt, arctan_third_pos]
  have hfracpos : 0 < Real.arctan (1/3) * 7 / (2 * Real.pi) := by
    apply div_pos
    · nlinarith [arctan_third_pos]
    · exact h2pi
  constructor <;> linarith

theorem ceFit4_dowPeakDay :
    jsRound (jsRem (jsRem (7 - jsAtan2 1 3 * 7 / (2 * Real.pi)) 7 + 7) 7) = 7 := by
  rw [jsAtan2_one_three]
  set y := 7 - Real.arctan (1/3) * 7 / (2 * Real.pi) with hy
  have hb := ceFit4_dowArg_bounds
  rw [← hy] at hb
  clear_value y
  rw [jsRem_of_nonneg_lt (by norm_num) (by linarith [hb.1]) hb.2]
  rw [jsRem_of_ge_lt_two (by norm_num : (0:ℝ) < 7) (by linarith [hb.1])
    (by linarith [hb.2])]
  rw [show y + 7 - 7 = y by ring]
  unfold jsRound
  rw [show ⌊y + 1/2⌋ = 7 from Int.floor_eq_iff.mpr
    ⟨by push_cast; linarith [hb.1], by push_cast; linarith [hb.2]⟩]
  norm_num

theorem ceFit4_hourPeakTime :
    jsRem (jsRem (24 - jsAtan2 0 0 * 24 / (2 * Real.pi)) 24 + 24) 24 = 0 := by
  have h24 : jsRem 24 24 = 0 := by
    rw [jsRem_of_ge_lt_two (by norm_num : (0:ℝ) < 24) (le_refl 24)
      (by norm_num)]
    ring
  rw [jsAtan2_zero_zero,
    show (24 : ℝ) - 0 * 24 / (2 * Real.pi) = 24 by ring, h24,
    show (0 : ℝ) + 24 = 24 by ring, h24]

theorem extract_ceFit4_eq :
    extractBaselineSummaries ceFit4 = [ceSummary4] := by
  unfold extractBaselineSummaries
  rw [show ceFit4.typeNames.length = 1 from rfl,
    show List.range 1 = [0] from rfl]
  simp only [List.filterMap_cons, List.filterMap_nil]
  rw [if_pos (show ceFit4.targetResults.any (fun e => e.1 == 0) = true
    from rfl)]
  have h5 : ceFit4.params.beta.getD (0 * 7 + 5) 0 = 1 := rfl
  have h6 : ceFit4.params.beta.getD (0 * 7 + 6) 0 = 3 := rfl
  have h1 : ceFit4.params.beta.getD (0 * 7 + 1) 0 = 0 := rfl
  have h2 : ceFit4.params.beta.getD (0 * 7 + 2) 0 = 0 := rfl
  have h0 : ceFit4.params.beta.getD (0 * 7) 0 = 0 := rfl
  simp only [h0, h1, h2, h5, h6]
  unfold ceSummary4
  rw [show ceFit4.typeNames.getD 0 "" = "A" from rfl]
  rw [ceFit4_hourPeakTime, ceFit4_dowPeakDay]
  norm_num

/-- Witness for C4: the summary produced for `ceFit4` has
`hourPeakTime = 0 ∈ [0, 24)` and `dowPeakDay = 7`, an integer in
`{0, ..., 7}` matching the rounded-modulo formula. -/
theorem extractBaselineSummaries_ranges_witness :
    (0 ≤ ceSummary4.hourPeakTime ∧ ceSummary4.hourPeakTime < 24) ∧
    (∃ k, k < ceFit4.typeNames.length ∧
      ceSummary4.dowPeakDay = jsRound (realMod
        (7 - jsAtan2 (ceFit4.params.beta.getD (k * 7 + 5) 0)
          (ceFit4.params.beta.getD (k * 7 + 6) 0) * 7 / (2 * Real.pi)) 7)) ∧
    (∃ n : ℤ, ceSummary4.dowPeakDay = (n : ℝ) ∧ 0 ≤ n ∧ n ≤ 7) :=
  extractBaselineSummaries_ranges ceFit4 ceSummary4
    (by rw [extract_ceFit4_eq]; exact List.mem_singleton.mpr rfl)

/-- Counterexample for C4 as stated: `extractBaselineSummaries` produces
for `ceFit4` (dow beta slots `(1, 3)`, so `dowPhase = arctan (1/3)`) the
peak day 7, which is not in `{0, 1, 2, 3, 4, 5, 6}`. -/
theorem extractBaselineSummaries_claim_counterexample :
    (extractBaselineSummaries ceFit4).map (fun s => s.dowPeakDay) = [(7 : ℝ)] ∧
    ¬ ∃ n : ℤ, (7 : ℝ) = (n : ℝ) ∧ 0 ≤ n ∧ n ≤ 6 := by
  constructor
  · rw [extract_ceFit4_eq]
    rfl
  · rintro ⟨n, hn, -, h6⟩
    have : (7 : ℤ) = n := by exact_mod_cast hn
    omega

/-! ## Claim C7: coverage closure invariants -/

theorem absorbPeriod_isGap (c p : TrackingPeriod) :
    (absorbPeriod c p).isGap = c.isGap := rfl

theorem mergeGo_ne_nil_head_isGap (m : ℤ) (l : List TrackingPeriod)
    (c : TrackingPeriod) :
    ∃ p rest, mergeGo m c l = p :: rest ∧ p.isGap = c.isGap := by
  induction l generalizing c with
  | nil => exact ⟨c, [], rfl, rfl⟩
  | cons next rest ih =>
      unfold mergeGo
      by_cases h1 : c.isGap == next.isGap
      · rw [if_pos h1]
        obtain ⟨p, r2, hp, hf⟩ := ih (absorbPeriod c next)
        exact ⟨p, r2, hp, by rw [hf, absorbPeriod_isGap]⟩
      · rw [if_neg h1]
        by_cases h2 : next.isGap && decide (next.dayCount < m)
        · rw [if_pos h2]
          obtain ⟨p, r2, hp, hf⟩ := ih (absorbPeriod c next)
          exact ⟨p, r2, hp, by rw [hf, absorbPeriod_isGap]⟩
        · rw [if_neg h2]
          exact ⟨c, mergeGo m next rest, rfl, rfl⟩

theorem mergeGo_chain (m : ℤ) (l : List TrackingPeriod) (c : TrackingPeriod) :
    List.Chain' (fun a b => a.isGap ≠ b.isGap) (mergeGo m c l) := by
  induction l generalizing c with
  | nil => simp [mergeGo]
  | cons next rest ih =>
      unfold mergeGo
      by_cases h1 : c.isGap == next.isGap
      · rw [if_pos h1]
        exact ih (absorbPeriod c next)
      · rw [if_neg h1]
        by_cases h2 : next.isGap && decide (next.dayCount < m)
        · rw [if_pos h2]
          exact ih (absorbPeriod c next)
        · rw [if_neg h2]
          obtain ⟨p, r2, hp, hf⟩ := mergeGo_ne_nil_head_isGap m rest next
          rw [hp]
          refine List.Chain'.cons ?_ (hp ▸ ih next)
          rw [hf]
          intro hcon
          exact h1 (by rw [hcon]; exact beq_self_eq_true _)

theorem mergeGo_sum (m : ℤ) (l : List TrackingPeriod) (c : TrackingPeriod) :
    ((mergeGo m c l).map (fun p => p.dayCount)).sum =
      c.dayCount + ((l.map fun p => p.dayCount).sum) := by
  induction l generalizing c with
  | nil => simp [mergeGo]
  | cons next rest ih =>
      unfold mergeGo
      by_cases h1 : c.isGap == next.isGap
      · rw [if_pos h1, ih (absorbPeriod c next)]
        unfold absorbPeriod
        simp only [List.map_cons, List.sum_cons]
        ring
      · rw [if_neg h1]
        by_cases h2 : next.isGap && decide (next.dayCount < m)
        · rw [if_pos h2, ih (absorbPeriod c next)]
          unfold absorbPeriod
          simp only [List.map_cons, List.sum_cons]
          ring
        · rw [if_neg h2]
          simp only [List.map_cons, List.sum_cons, ih next]

theorem mergePeriods_chain (l : List TrackingPeriod) (m : ℤ) :
    List.Chain' (fun a b => a.isGap ≠ b.isGap) (mergePeriods l m) := by
  unfold mergePeriods
  by_cases h : l.length ≤ 1
  · rw [if_pos h]
    match l, h with
    | [], _ => simp
    | [p], _ => simp
  · rw [if_neg h]
    match l, h with
    | [], h => simp at h
    | p :: rest, _ => exact mergeGo_chain m rest p

theorem mergePeriods_sum (l : List TrackingPeriod) (m : ℤ) :
    ((mergePeriods l m).map (fun p => p.dayCount)).sum =
      ((l.map fun p => p.dayCount).sum) := by
  unfold mergePeriods
  by_cases h : l.length ≤ 1
  · rw [if_pos h]
  · rw [if_neg h]
    match l, h with
    | [], h => simp at h
    | p :: rest, _ =>
        rw [mergeGo_sum]
        simp

theorem sum_dayCount_filter_partition (l : List TrackingPeriod) :
    (((l.filter fun p => !p.isGap).map fun p => p.dayCount).sum) +
      (((l.filter fun p => p.isGap).map fun p => p.dayCount).sum) =
      ((l.map fun p => p.dayCount).sum) := by
  induction l with
  | nil => simp
  | cons p rest ih =>
      cases h : p.isGap
      · simp only [List.filter_cons, h, Bool.not_false, if_true,
          Bool.false_eq_true, if_false, List.map_cons, List.sum_cons]
        rw [← ih]
        ring
      · simp only [List.filter_cons, h, Bool.not_true, if_true,
          Bool.false_eq_true, if_false, List.map_cons, List.sum_cons]
        rw [← ih]
        ring

theorem periodsGo_zero (entries : List DayEntry) (active : List Bool)
    (i ps : ℕ) (flag : Bool) (acc : List TrackingPeriod) :
    periodsGo entries active 0 i ps flag acc = acc := rfl

theorem periodsGo_succ_last (entries : List DayEntry) (active : List Bool)
    (r i ps : ℕ) (flag : Bool) (acc : List TrackingPeriod)
    (hlast : i = active.length) :
    periodsGo entries active (r + 1) i ps flag acc =
      periodsGo entries active r (i + 1) ps flag
        (acc ++ [mkPeriod entries ps (i - 1) flag]) := by
  simp only [periodsGo, beq_iff_eq.mpr hlast |> (show (i == active.length) =
    true from ·), Bool.not_true, Bool.false_and, Bool.or_true, if_true,
    Bool.false_eq_true, if_false]

theorem periodsGo_succ_changed (entries : List DayEntry) (active : List Bool)
    (r i ps : ℕ) (flag : Bool) (acc : List TrackingPeriod)
    (hne : i ≠ active.length) (hch : ¬ active.getD i false = flag) :
    periodsGo entries active (r + 1) i ps flag acc =
      periodsGo entries active r (i + 1) i (active.getD i false)
        (acc ++ [mkPeriod entries ps (i - 1) flag]) := by
  have h1 : (i == active.length) = false := beq_eq_false_iff_ne.mpr hne
  have h2 : (active.getD i false != flag) = true := bne_iff_ne.mpr hch
  simp only [periodsGo, h1, h2, Bool.not_false, Bool.true_and, Bool.or_false,
    if_true]

theorem periodsGo_succ_same (entries : List DayEntry) (active : List Bool)
    (r i ps : ℕ) (flag : Bool) (acc : List TrackingPeriod)
    (hne : i ≠ active.length) (hch : active.getD i false = flag) :
    periodsGo entries active (r + 1) i ps flag acc =
      periodsGo entries active r (i + 1) ps flag acc := by
  have h1 : (i == active.length) = false := beq_eq_false_iff_ne.mpr hne
  have h2 : (active.getD i false != flag) = false := by
    rw [bne_eq_false_iff_eq]
    exact hch
  simp only [periodsGo, h1, h2, Bool.not_false, Bool.true_and, Bool.or_false,
    Bool.false_eq_true, if_false]

theorem periodsGo_sum (entries : List DayEntry) (active : List Bool)
    (r : ℕ) :
    ∀ (i periodStart : ℕ) (flag : Bool) (acc : List TrackingPeriod),
      1 ≤ i → i ≤ active.length → i + r = active.length + 1 →
      (((periodsGo entries active r i periodStart flag acc).map
        fun p => p.dayCount).sum) =
        ((acc.map fun p => p.dayCount).sum) +
          ((active.length : ℤ) - (periodStart : ℤ)) := by
  induction r with
  | zero =>
      intro i ps flag acc h1 hin hsum
      omega
  | succ r ih =>
      intro i ps flag acc h1 hin hsum
      by_cases hlast : i = active.length
      · have hr : r = 0 := by omega
        subst hr
        rw [periodsGo_succ_last entries active 0 i ps flag acc hlast,
          periodsGo_zero, List.map_append, List.sum_append]
        unfold mkPeriod
        simp only [List.map_cons, List.map_nil, List.sum_cons, List.sum_nil]
        have hi1 : ((i - 1 : ℕ) : ℤ) = (i : ℤ) - 1 := by omega
        rw [hi1, hlast]
        ring
      · by_cases hch : active.getD i false = flag
        · rw [periodsGo_succ_same entries active r i ps flag acc hlast hch]
          exact ih (i + 1) ps flag acc (by omega) (by omega) (by omega)
        · rw [periodsGo_succ_changed entries active r i ps flag acc hlast hch]
          rw [ih (i + 1) i (active.getD i false)
            (acc ++ [mkPeriod entries ps (i - 1) flag]) (by omega) (by omega)
            (by omega)]
          rw [List.map_append, List.sum_append]
          unfold mkPeriod
          simp only [List.map_cons, List.map_nil, List.sum_cons, List.sum_nil]
          have hi1 : ((i - 1 : ℕ) : ℤ) = (i : ℤ) - 1 := by omega
          rw [hi1]
          ring

theorem buildPeriods_sum (entries : List DayEntry) (active : List Bool) :
    (((buildPeriods entries active).map fun p => p.dayCount).sum) =
      (active.length : ℤ) := by
  unfold buildPeriods
  by_cases h : active.length = 0
  · rw [h, periodsGo_zero]
    simp
  · rw [periodsGo_sum entries active active.length 1 0 (active.getD 0 false)
      [] (by omega) (by omega) (by omega)]
    simp

theorem foldl_min_le (l : List ℤ) (x : ℤ) : l.foldl min x ≤ x := by
  induction l generalizing x with
  | nil => simp
  | cons y ys ih =>
      simp only [List.foldl_cons]
      exact le_trans (ih (min x y)) (min_le_left x y)

theorem le_foldl_max (l : List ℤ) (x : ℤ) : x ≤ l.foldl max x := by
  induction l generalizing x with
  | nil => simp
  | cons y ys ih =>
      simp only [List.foldl_cons]
      exact le_trans (le_max_left x y) (ih (max x y))

theorem min_getD_le_max_getD (l : List ℤ) (hl : l ≠ []) :
    (l.min?).getD 0 ≤ (l.max?).getD 0 := by
  match l, hl with
  | x :: xs, _ =>
      have h1 : (x :: xs).min? = some (xs.foldl min x) := rfl
      have h2 : (x :: xs).max? = some (xs.foldl max x) := rfl
      rw [h1, h2]
      simp only [Option.getD_some]
      exact le_trans (foldl_min_le xs x) (le_foldl_max xs x)

/-- C7: for every input track list, the coverage statistics satisfy
`activeDays + gapDays = totalDays`, the `dayCount` fields of the returned
periods sum to `totalDays`, and no two adjacent returned periods share the
same is-gap flag. -/
theorem computeCoverageStats_closure (tracks : List Track) :
    (computeCoverageStats tracks).activeDays +
      (computeCoverageStats tracks).gapDays =
      (computeCoverageStats tracks).totalDays ∧
    (((computeCoverageStats tracks).periods.map fun p => p.dayCount).sum =
      (computeCoverageStats tracks).totalDays) ∧
    List.Chain' (fun a b => a.isGap ≠ b.isGap)
      (computeCoverageStats tracks).periods := by
  unfold computeCoverageStats
  by_cases hemp : tracks.isEmpty
  · rw [if_pos hemp]
    refine ⟨rfl, rfl, by simp [emptyCoverageStats]⟩
  rw [if_neg hemp]
  by_cases hvemp : (tracks.filter fun t => t.date.isSome).isEmpty
  · rw [if_pos hvemp]
    refine ⟨rfl, rfl, by simp [emptyCoverageStats]⟩
  rw [if_neg hvemp]
  simp only
  set validTracks := tracks.filter fun t => t.date.isSome with hvt
  set dates := validTracks.filterMap fun t => t.date with hdates
  set minTs := (dates.min?).getD 0 with hminTs
  set maxTs := (dates.max?).getD 0 with hmaxTs
  set startDay := dayKeyUTC minTs * 86400000 with hstartDay
  set endDay := dayKeyUTC maxTs * 86400000 with hendDay
  set totalDays := Int.fdiv (endDay - startDay) 86400000 + 1 with htotalDays
  have hdne : dates ≠ [] := by
    rw [List.isEmpty_iff] at hvemp
    obtain ⟨t, htm⟩ := List.exists_mem_of_ne_nil validTracks hvemp
    have htm2 := htm
    rw [hvt] at htm2
    have ht : t.date.isSome := (List.mem_filter.mp htm2).2
    rcases hd : t.date with _ | d
    · rw [hd] at ht; simp at ht
    · intro hcon
      have hmem : d ∈ dates := by
        rw [hdates, List.mem_filterMap]
        exact ⟨t, htm, hd⟩
      rw [hcon] at hmem
      simp at hmem
  have hmm : minTs ≤ maxTs := by
    rw [hminTs, hmaxTs]
    exact min_getD_le_max_getD dates hdne
  have hkey : dayKeyUTC minTs ≤ dayKeyUTC maxTs := by
    unfold dayKeyUTC
    rw [Int.fdiv_eq_ediv _ (by norm_num), Int.fdiv_eq_ediv _ (by norm_num)]
    exact Int.ediv_le_ediv (by norm_num) hmm
  have htd : totalDays = dayKeyUTC maxTs - dayKeyUTC minTs + 1 := by
    rw [htotalDays, hendDay, hstartDay]
    rw [show dayKeyUTC maxTs * 86400000 - dayKeyUTC minTs * 86400000 =
      (dayKeyUTC maxTs - dayKeyUTC minTs) * 86400000 by ring]
    rw [Int.fdiv_eq_ediv _ (by norm_num)]
    rw [Int.mul_ediv_cancel _ (by norm_num)]
  have htdpos : 1 ≤ totalDays := by omega
  set entries := (dayStartList startDay totalDays.toNat).map
    (fun ms => ({ date := ms,
                  dayKey := dayKeyUTC ms,
                  count := (validTracks.filter fun t =>
                    t.date.map dayKeyUTC == some (dayKeyUTC ms)).length } :
      DayEntry))
    with hentries
  set counts := entries.map fun e => e.count with hcounts
  set active := activeFlags counts with hactive
  have hlen : (active.length : ℤ) = totalDays := by
    rw [hactive, hcounts, hentries]
    simp only [activeFlags, dayStartList, List.length_map, List.length_range]
    omega
  refine ⟨?_, ?_, ?_⟩
  · rw [sum_dayCount_filter_partition, mergePeriods_sum, buildPeriods_sum,
      hlen]
  · rw [mergePeriods_sum, buildPeriods_sum, hlen]
  · exact mergePeriods_chain _ 14

/-! ## Claim C8: window and event-stream soundness -/

theorem windowsGo_head_start (m : ℤ) :
    ∀ (l : List ObservationWindow) (c : ObservationWindow),
      ∃ hd tl, windowsGo m c l = hd :: tl ∧ hd.startMs = c.startMs := by
  intro l
  induction l with
  | nil => intro c; exact ⟨c, [], rfl, rfl⟩
  | cons w rest ih =>
      intro c
      unfold windowsGo
      by_cases h : w.startMs ≤ c.endMs + m
      · rw [if_pos h]
        obtain ⟨hd, tl, heq, hst⟩ := ih { c with endMs := max c.endMs w.endMs }
        exact ⟨hd, tl, heq, hst⟩
      · rw [if_neg h]
        exact ⟨c, windowsGo m w rest, rfl, rfl⟩

theorem windowsGo_mem_lt (m : ℤ) :
    ∀ (l : List ObservationWindow) (c : ObservationWindow),
      c.startMs < c.endMs → (∀ w ∈ l, w.startMs < w.endMs) →
      ∀ w ∈ windowsGo m c l, w.startMs < w.endMs := by
  intro l
  induction l with
  | nil =>
      intro c hc _ w hw
      unfold windowsGo at hw
      rw [List.mem_singleton] at hw
      subst hw
      exact hc
  | cons x rest ih =>
      intro c hc hl w hw
      unfold windowsGo at hw
      by_cases h : x.startMs ≤ c.endMs + m
      · rw [if_pos h] at hw
        exact ih { c with endMs := max c.endMs x.endMs }
          (lt_of_lt_of_le hc (le_max_left c.endMs x.endMs))
          (fun v hv => hl v (List.mem_cons_of_mem x hv)) w hw
      · rw [if_neg h] at hw
        rcases List.mem_cons.mp hw with hcw | hw2
        · subst hcw; exact hc
        · exact ih x (hl x (List.mem_cons_self x rest))
            (fun v hv => hl v (List.mem_cons_of_mem x hv)) w hw2

theorem windowsGo_chain (m : ℤ) (hm : 0 ≤ m) :
    ∀ (l : List ObservationWindow) (c : ObservationWindow),
      List.Chain' (fun a b => a.endMs < b.startMs) (windowsGo m c l) := by
  intro l
  induction l with
  | nil =>
      intro c
      unfold windowsGo
      exact List.chain'_singleton c
  | cons x rest ih =>
      intro c
      unfold windowsGo
      by_cases h : x.startMs ≤ c.endMs + m
      · rw [if_pos h]
        exact ih { c with endMs := max c.endMs x.endMs }
      · rw [if_neg h]
        obtain ⟨hd, tl, heq, hst⟩ := windowsGo_head_start m rest x
        rw [heq]
        refine List.chain'_cons.mpr ⟨?_, ?_⟩
        · rw [hst]
          omega
        · rw [← heq]
          exact ih x

theorem window_chain_head :
    ∀ (rest : List ObservationWindow) (x : ObservationWindow),
      (∀ w ∈ rest, w.startMs < w.endMs) →
      List.Chain' (fun a b => a.endMs < b.startMs) (x :: rest) →
      ∀ b ∈ rest, x.endMs < b.startMs := by
  intro rest
  induction rest with
  | nil =>
      intro x _ _ b hb
      simp at hb
  | cons y ys ih =>
      intro x hlt hch b hb
      have hxy : x.endMs < y.startMs := (List.chain'_cons.mp hch).1
      rcases List.mem_cons.mp hb with hby | hb2
      · subst hby
        exact hxy
      · have hy : y.startMs < y.endMs := hlt y (List.mem_cons_self y ys)
        have hrec := ih y (fun v hv => hlt v (List.mem_cons_of_mem y hv))
          (List.chain'_cons.mp hch).2 b hb2
        omega

theorem window_chain_pairwise :
    ∀ (l : List ObservationWindow),
      (∀ w ∈ l, w.startMs < w.endMs) →
      List.Chain' (fun a b => a.endMs < b.startMs) l →
      List.Pairwise (fun a b => a.endMs < b.startMs) l := by
  intro l
  induction l with
  | nil =>
      intro _ _
      exact List.Pairwise.nil
  | cons x rest ih =>
      intro hlt hch
      refine List.pairwise_cons.mpr ⟨?_, ?_⟩
      · exact window_chain_head rest x
          (fun v hv => hlt v (List.mem_cons_of_mem x hv)) hch
      · exact ih (fun v hv => hlt v (List.mem_cons_of_mem x hv)) hch.tail

theorem coverageToWindows_mem_lt (coverage : CoverageStats) (m : ℤ)
    (hper : ∀ p ∈ coverage.periods, p.startDate ≤ p.endDate) :
    ∀ w ∈ coverageToWindows coverage m, w.startMs < w.endMs := by
  intro w hw
  simp only [coverageToWindows] at hw
  split at hw
  · simp at hw
  · split at hw
    · simp at hw
    · rename_i w0 rest hs
      have hmem : ∀ v ∈ w0 :: rest, v.startMs < v.endMs := by
        intro v hv
        rw [← hs] at hv
        have hv2 := mem_jsSortBy.mp hv
        rw [List.mem_map] at hv2
        obtain ⟨p, hp, hpv⟩ := hv2
        have hpd := hper p (List.mem_of_mem_filter hp)
        subst hpv
        show p.startDate < p.endDate + 24 * 60 * 60 * 1000
        omega
      exact windowsGo_mem_lt m rest w0 (hmem w0 (List.mem_cons_self w0 rest))
        (fun v hv => hmem v (List.mem_cons_of_mem w0 hv)) w hw

theorem coverageToWindows_chain (coverage : CoverageStats) (m : ℤ)
    (hm : 0 ≤ m) :
    List.Chain' (fun a b => a.endMs < b.startMs)
      (coverageToWindows coverage m) := by
  simp only [coverageToWindows]
  split
  · exact List.chain'_nil
  · split
    · exact List.chain'_nil
    · exact windowsGo_chain m hm _ _

theorem isInObservationWindow_sound (t : ℤ) :
    ∀ ws : List ObservationWindow, isInObservationWindow t ws = true →
      ∃ w ∈ ws, w.startMs ≤ t ∧ t < w.endMs := by
  intro ws
  induction ws with
  | nil =>
      intro h
      simp [isInObservationWindow] at h
  | cons w rest ih =>
      intro h
      unfold isInObservationWindow at h
      by_cases h1 : (decide (w.startMs ≤ t) && decide (t < w.endMs)) = true
      · rw [Bool.and_eq_true, decide_eq_true_eq, decide_eq_true_eq] at h1
        exact ⟨w, List.mem_cons_self w rest, h1.1, h1.2⟩
      · rw [if_neg h1] at h
        by_cases h2 : t < w.startMs
        · rw [if_pos h2] at h
          exact absurd h (by simp)
        · rw [if_neg h2] at h
          obtain ⟨v, hv, hle, hlt⟩ := ih h
          exact ⟨v, List.mem_cons_of_mem w hv, hle, hlt⟩

theorem buildEventStream_times_sorted (tracks : List Track)
    (windows : List ObservationWindow) :
    List.Pairwise (fun a b : ℤ => a ≤ b)
      (buildEventStream tracks windows).times := by
  simp only [buildEventStream]
  rw [List.pairwise_map]
  have htot : ∀ a b : ℤ × String,
      (decide (a.1 ≤ b.1)) = true ∨ (decide (b.1 ≤ a.1)) = true := by
    intro a b
    rcases le_total a.1 b.1 with h | h
    · exact Or.inl (decide_eq_true h)
    · exact Or.inr (decide_eq_true h)
  have htrans : ∀ a b c : ℤ × String, decide (a.1 ≤ b.1) = true →
      decide (b.1 ≤ c.1) = true → decide (a.1 ≤ c.1) = true := by
    intro a b c h1 h2
    exact decide_eq_true (le_trans (of_decide_eq_true h1) (of_decide_eq_true h2))
  exact List.Pairwise.imp (fun h => of_decide_eq_true h)
    (jsSortBy_sorted htot htrans _)

theorem buildEventStream_times_in_windows (tracks : List Track)
    (windows : List ObservationWindow) :
    ∀ t ∈ (buildEventStream tracks windows).times,
      ∃ w ∈ windows, w.startMs ≤ t ∧ t < w.endMs := by
  intro t ht
  simp only [buildEventStream] at ht
  rw [List.mem_map] at ht
  obtain ⟨e, he, het⟩ := ht
  have he2 := mem_jsSortBy.mp he
  rw [List.mem_filterMap] at he2
  obtain ⟨track, htr, hmt⟩ := he2
  rcases hd : track.date with _ | s
  · rw [hd] at hmt
    simp at hmt
  · rw [hd] at hmt
    simp only [Option.ite_none_right_eq_some, Option.some.injEq] at hmt
    obtain ⟨hin, hse⟩ := hmt
    rw [← het, ← hse]
    exact isInObservationWindow_sound s windows hin

/-- C8: given coverage periods with `startDate ≤ endDate` and a
non-negative merge gap, every window produced by `coverageToWindows` is
half-open with `startMs < endMs` and the windows are pairwise strictly
separated (`endMs < startMs` of any later window), hence sorted by start
and non-overlapping; and for every track list and window list,
`buildEventStream` returns non-decreasing times all of which lie inside
the union of the half-open windows. -/
theorem windows_and_stream_sound (coverage : CoverageStats) (minGapMs : ℤ)
    (tracks : List Track) (windows : List ObservationWindow)
    (hm : 0 ≤ minGapMs)
    (hper : ∀ p ∈ coverage.periods, p.startDate ≤ p.endDate) :
    (∀ w ∈ coverageToWindows coverage minGapMs, w.startMs < w.endMs) ∧
    List.Pairwise (fun a b => a.endMs < b.startMs)
      (coverageToWindows coverage minGapMs) ∧
    List.Pairwise (fun a b : ℤ => a ≤ b)
      (buildEventStream tracks windows).times ∧
    (∀ t ∈ (buildEventStream tracks windows).times,
      ∃ w ∈ windows, w.startMs ≤ t ∧ t < w.endMs) :=
  ⟨coverageToWindows_mem_lt coverage minGapMs hper,
   window_chain_pairwise _ (coverageToWindows_mem_lt coverage minGapMs hper)
     (coverageToWindows_chain coverage minGapMs hm),
   buildEventStream_times_sorted tracks windows,
   buildEventStream_times_in_windows tracks windows⟩

/-- Witness for C8 at a concrete coverage result (one active period) with
the worker's default 6-hour merge gap, and a concrete track and window
list. -/
theorem windows_and_stream_sound_witness :
    (0 ≤ (21600000 : ℤ)) ∧
    (∀ p ∈ cwCoverage.periods, p.startDate ≤ p.endDate) ∧
    ((∀ w ∈ coverageToWindows cwCoverage 21600000, w.startMs < w.endMs) ∧
     List.Pairwise (fun a b => a.endMs < b.startMs)
       (coverageToWindows cwCoverage 21600000) ∧
     List.Pairwise (fun a b : ℤ => a ≤ b)
       (buildEventStream cwTracks cwWindows).times ∧
     (∀ t ∈ (buildEventStream cwTracks cwWindows).times,
       ∃ w ∈ cwWindows, w.startMs ≤ t ∧ t < w.endMs)) :=
  ⟨by norm_num, by decide,
   windows_and_stream_sound cwCoverage 21600000 cwTracks cwWindows
     (by norm_num) (by decide)⟩

/-! ## Claim C9: the Adam clamp invariant of `fitTargetType` -/

theorem clampFinite_range (x : ℝ) :
    -50 ≤ clampFinite x ∧ clampFinite x ≤ 50 := by
  unfold clampFinite
  refine ⟨le_max_left _ _, max_le ?_ (min_le_left _ _)⟩
  norm_num

theorem mem_mapIdx_forall {α β : Type} (f : ℕ → α → β) (l : List α)
    (P : β → Prop) (h : ∀ (i : ℕ) (hi : i < l.length), P (f i l[i])) :
    ∀ y ∈ l.mapIdx f, P y := by
  intro y hy
  rw [List.mem_iff_getElem] at hy
  obtain ⟨i, hi, hyi⟩ := hy
  have hi2 : i < l.length := by simpa using hi
  rw [List.getElem_mapIdx] at hyi
  rw [← hyi]
  exact h i hi2

theorem initParamsFromData_theta_zero (nT nB : ℕ) (c : List ℚ) (h : ℚ)
    (k : ℕ) : ∀ x ∈ (initParamsFromData nT nB c h).theta.getD k [], x = 0 := by
  intro x hx
  have hth : (initParamsFromData nT nB c h).theta =
      List.replicate nT (List.replicate (nT * nB) (0 : ℝ)) := rfl
  rw [hth] at hx
  by_cases hk : k < nT
  · rw [List.getD_eq_getElem?_getD, List.getElem?_replicate, if_pos hk] at hx
    simp [List.mem_replicate] at hx
    exact hx.2
  · rw [List.getD_eq_getElem?_getD, List.getElem?_replicate, if_neg hk] at hx
    simp at hx

theorem adamUpdate_ranged (targetType numTypes numBases : ℕ)
    (opts : FitOptions) (s : AdamState) (result : LikelihoodResult)
    (hrow : ∀ x ∈ s.params.theta.getD targetType [], -50 ≤ x ∧ x ≤ 50) :
    (∀ x ∈ (adamUpdate targetType numTypes numBases opts s
        result).params.beta, -50 ≤ x ∧ x ≤ 50) ∧
    (∀ x ∈ (adamUpdate targetType numTypes numBases opts s
        result).params.theta.getD targetType [], -50 ≤ x ∧ x ≤ 50) := by
  constructor
  · simp only [adamUpdate]
    apply mem_mapIdx_forall
    intro i hi
    exact clampFinite_range _
  · simp only [adamUpdate]
    by_cases hlt : targetType < s.params.theta.length
    · rw [listGetD_set_self _ _ _ _ hlt]
      apply mem_mapIdx_forall
      intro i hi
      by_cases hupd : thetaUpdated numTypes numBases targetType i
      · rw [if_pos hupd]
        exact clampFinite_range _
      · rw [if_neg hupd]
        exact hrow _ (List.mem_iff_getElem.mpr ⟨i, hi, rfl⟩)
    · have hge : s.params.theta.length ≤ targetType := le_of_not_lt hlt
      intro x hx
      rw [List.getD_eq_getElem?_getD,
        List.getElem?_eq_none (by simpa using hge)] at hx
      simp at hx

theorem adamLoop_ranged (stream : EventStream)
    (windows : List ObservationWindow) (targetType numTypes numBases : ℕ)
    (opts : FitOptions) (n : ℕ) :
    ∀ (s : AdamState),
      (∀ x ∈ s.params.theta.getD targetType [], -50 ≤ x ∧ x ≤ 50) →
      (s.prevLogLik ≠ none → ∀ x ∈ s.params.beta, -50 ≤ x ∧ x ≤ 50) →
      (∀ x ∈ (adamLoop stream windows targetType numTypes numBases opts n
          s).params.theta.getD targetType [], -50 ≤ x ∧ x ≤ 50) ∧
      ((adamLoop stream windows targetType numTypes numBases opts n
          s).prevLogLik ≠ none →
        ∀ x ∈ (adamLoop stream windows targetType numTypes numBases opts n
          s).params.beta, -50 ≤ x ∧ x ≤ 50) := by
  induction n with
  | zero =>
      intro s h1 h2
      simp only [adamLoop]
      exact ⟨h1, h2⟩
  | succ n ih =>
      intro s h1 h2
      unfold adamLoop
      rcases hp : s.prevLogLik with _ | prev
      · simp only [hp]
        exact ih _
          (adamUpdate_ranged targetType numTypes numBases opts s _ h1).2
          (fun _ =>
            (adamUpdate_ranged targetType numTypes numBases opts s _ h1).1)
      · simp only [hp]
        by_cases hc : |(computeLogLikelihood s.params stream windows
            targetType opts.lambda1 opts.lambda2).logLik - prev| <
            opts.tolerance
        · rw [if_pos hc]
          refine ⟨h1, fun _ => ?_⟩
          exact h2 (by rw [hp]; simp)
        · rw [if_neg hc]
          exact ih _
            (adamUpdate_ranged targetType numTypes numBases opts s _ h1).2
            (fun _ =>
              (adamUpdate_ranged targetType numTypes numBases opts s _ h1).1)

theorem adamLoop_prev_some (stream : EventStream)
    (windows : List ObservationWindow) (targetType numTypes numBases : ℕ)
    (opts : FitOptions) (n : ℕ) :
    ∀ (s : AdamState) (p : ℝ), s.prevLogLik = some p →
      (adamLoop stream windows targetType numTypes numBases opts n
        s).prevLogLik ≠ none := by
  induction n with
  | zero =>
      intro s p hp
      simp only [adamLoop, hp]
      simp
  | succ n ih =>
      intro s p hp
      unfold adamLoop
      simp only [hp]
      by_cases hc : |(computeLogLikelihood s.params stream windows targetType
          opts.lambda1 opts.lambda2).logLik - p| < opts.tolerance
      · rw [if_pos hc]
        simp [hp]
      · rw [if_neg hc]
        exact ih (adamUpdate targetType numTypes numBases opts s
            (computeLogLikelihood s.params stream windows targetType
              opts.lambda1 opts.lambda2))
          (computeLogLikelihood s.params stream windows targetType
            opts.lambda1 opts.lambda2).logLik rfl

theorem adamLoop_none_step (stream : EventStream)
    (windows : List ObservationWindow) (targetType numTypes numBases : ℕ)
    (opts : FitOptions) (n : ℕ) (s : AdamState)
    (hp : s.prevLogLik = none) :
    adamLoop stream windows targetType numTypes numBases opts (n + 1) s =
      adamLoop stream windows targetType numTypes numBases opts n
        (adamUpdate targetType numTypes numBases opts s
          (computeLogLikelihood s.params stream windows targetType
            opts.lambda1 opts.lambda2)) := by
  conv_lhs => rw [adamLoop]
  simp only [hp]

theorem adamLoop_from_init_ranged (stream : EventStream)
    (windows : List ObservationWindow) (targetType numTypes numBases m : ℕ)
    (opts : FitOptions) (p0 : PPGLMParams)
    (hrow : ∀ x ∈ p0.theta.getD targetType [], -50 ≤ x ∧ x ≤ 50) :
    (∀ x ∈ (adamLoop stream windows targetType numTypes numBases opts (m + 1)
        (initAdamState p0 numTypes numBases)).params.beta,
      -50 ≤ x ∧ x ≤ 50) ∧
    (∀ x ∈ (adamLoop stream windows targetType numTypes numBases opts (m + 1)
        (initAdamState p0 numTypes numBases)).params.theta.getD targetType [],
      -50 ≤ x ∧ x ≤ 50) := by
  rw [adamLoop_none_step stream windows targetType numTypes numBases opts m
    (initAdamState p0 numTypes numBases) rfl]
  have hupd := adamUpdate_ranged targetType numTypes numBases opts
    (initAdamState p0 numTypes numBases)
    (computeLogLikelihood (initAdamState p0 numTypes numBases).params stream
      windows targetType opts.lambda1 opts.lambda2) hrow
  have hmain := adamLoop_ranged stream windows targetType numTypes numBases
    opts m
    (adamUpdate targetType numTypes numBases opts
      (initAdamState p0 numTypes numBases)
      (computeLogLikelihood (initAdamState p0 numTypes numBases).params stream
        windows targetType opts.lambda1 opts.lambda2))
    hupd.2 (fun _ => hupd.1)
  have hsome := adamLoop_prev_some stream windows targetType numTypes numBases
    opts m
    (adamUpdate targetType numTypes numBases opts
      (initAdamState p0 numTypes numBases)
      (computeLogLikelihood (initAdamState p0 numTypes numBases).params stream
        windows targetType opts.lambda1 opts.lambda2))
    (computeLogLikelihood (initAdamState p0 numTypes numBases).params stream
      windows targetType opts.lambda1 opts.lambda2).logLik rfl
  exact ⟨hmain.2 hsome, hmain.1⟩

/-- C9 (amended): provided at least one Adam iteration is requested
(`maxIter ≥ 1`; the source default is 200 and the worker passes 150),
every beta entry and every entry of the target type's theta row in the
`FitResult` returned by `fitTargetType` lies in `[-50, 50]`: each update
writes only `clampFinite` values over the whole beta vector and over the
visited theta-row entries, the unvisited theta-row entries keep their
zero seed, and the convergence break can only return a state already
produced by an update.  (In the exact real-number model every value is
finite, so the non-finite-reset clause of `clampFinite` is vacuous.)
With `maxIter = 0` the unclamped seed is returned and the bound can
fail, so the claim's unconditional form is false. -/
theorem fitTargetType_params_clamped (stream : EventStream)
    (windows : List ObservationWindow) (targetType numBases : ℕ)
    (options : FitOptionsPartial) (countsByType : Option (List ℚ))
    (totalObservedHours : Option ℚ)
    (hiter : 1 ≤ (mergeOptions options).maxIter) :
    (∀ x ∈ (fitTargetType stream windows targetType numBases options
        countsByType totalObservedHours).params.beta, -50 ≤ x ∧ x ≤ 50) ∧
    (∀ x ∈ (fitTargetType stream windows targetType numBases options
        countsByType totalObservedHours).params.theta.getD targetType [],
      -50 ≤ x ∧ x ≤ 50) := by
  obtain ⟨m, hm⟩ : ∃ m, (mergeOptions options).maxIter = m + 1 :=
    ⟨(mergeOptions options).maxIter - 1, by omega⟩
  have hz : ∀ (cs : List ℚ) (hrs : ℚ) (x : ℝ),
      x ∈ (initParamsFromData stream.typeNames.length numBases cs
        hrs).theta.getD targetType [] → -50 ≤ x ∧ x ≤ 50 := by
    intro cs hrs x hx
    rw [initParamsFromData_theta_zero stream.typeNames.length numBases cs hrs
      targetType x hx]
    norm_num
  simp only [fitTargetType]
  rw [hm]
  rcases countsByType with _ | c <;> rcases totalObservedHours with _ | h <;>
    exact adamLoop_from_init_ranged stream windows targetType
      stream.typeNames.length numBases m (mergeOptions options) _
      (fun x hx => hz _ _ x hx)

/-- Witness for C9 at a concrete one-type stream with the default
options (`maxIter = 200`). -/
theorem fitTargetType_params_clamped_witness :
    1 ≤ (mergeOptions emptyFitOptions).maxIter ∧
    ((∀ x ∈ (fitTargetType cwStream [] 0 1 emptyFitOptions none
        none).params.beta, -50 ≤ x ∧ x ≤ 50) ∧
     (∀ x ∈ (fitTargetType cwStream [] 0 1 emptyFitOptions none
         none).params.theta.getD 0 [], -50 ≤ x ∧ x ≤ 50)) :=
  ⟨by norm_num [mergeOptions, emptyFitOptions, DEFAULT_OPTIONS],
   fitTargetType_params_clamped cwStream [] 0 1 emptyFitOptions none none
     (by norm_num [mergeOptions, emptyFitOptions, DEFAULT_OPTIONS])⟩

/-- Counterexample for C9 as stated: with `maxIter = 0` no Adam iteration
runs and `fitTargetType` returns the unclamped seed parameters; seeding
from `10^24` events over one observed hour makes the returned intercept
`log (10^24 + 1/2) > 50`, outside `[-50, 50]`. -/
theorem fitTargetType_claim_counterexample :
    50 < (fitTargetType cwStream [] 0 1 cwOptions0 (some [10 ^ 24])
      (some 1)).params.beta.getD 0 0 := by
  have hred : (fitTargetType cwStream [] 0 1 cwOptions0 (some [10 ^ 24])
      (some 1)).params.beta.getD 0 0 =
      (initParamsFromData 1 1 [10 ^ 24] 1).beta.getD 0 0 := rfl
  rw [hred]
  have hw : 0 < NUM_BASELINE_FEATURES := by norm_num [NUM_BASELINE_FEATURES]
  have hrange : ∀ k, k < 1 → k * NUM_BASELINE_FEATURES <
      (List.replicate (1 * NUM_BASELINE_FEATURES) (0 : ℝ)).length := by
    intro k hk
    interval_cases k
    simp [NUM_BASELINE_FEATURES]
  have hval : (initParamsFromData 1 1 [10 ^ 24] 1).beta.getD 0 0 =
      Real.log (((((10 : ℚ) ^ 24 + 1/2) / max 1 (1/1000000) : ℚ)) : ℝ) := by
    unfold initParamsFromData initParams
    simp only
    rw [show (0 : ℕ) = 0 * NUM_BASELINE_FEATURES from rfl,
      foldl_set_getD _ _ hw _ _ hrange, if_pos ⟨0, Nat.one_pos, rfl⟩]
    norm_num
  rw [hval]
  have hq : (((((10 : ℚ) ^ 24 + 1/2) / max 1 (1/1000000) : ℚ)) : ℝ) =
      (10 : ℝ) ^ 24 + 1/2 := by
    rw [show max (1 : ℚ) (1/1000000) = 1 by norm_num]
    push_cast
    norm_num
  rw [hq]
  rw [show (50 : ℝ) = Real.log (Real.exp 50) by rw [Real.log_exp]]
  apply Real.log_lt_log (Real.exp_pos 50)
  have h3 : Real.exp 50 < 3 ^ 50 := by
    rw [show (50 : ℝ) = ((50 : ℕ) : ℝ) * 1 by norm_num, Real.exp_nat_mul]
    exact pow_lt_pow_left₀
      (lt_trans Real.exp_one_lt_d9 (by norm_num))
      (le_of_lt (Real.exp_pos 1)) (by norm_num)
  calc Real.exp 50 < 3 ^ 50 := h3
  _ < 10 ^ 24 + 1/2 := by norm_num

/-! ## Claim C2: zero eligible fit targets and the `modelFitted` flag -/

theorem computeCountsByType_length (stream : EventStream) (n : ℕ) :
    (computeCountsByType stream n).length = n := by
  unfold computeCountsByType
  have hgen : ∀ (l : List String) (acc : List ℚ),
      (l.foldl (fun counts typeName =>
        match stream.typeIndex typeName with
        | some idx => counts.set idx (counts.getD idx 0 + 1)
        | none => counts) acc).length = acc.length := by
    intro l
    induction l with
    | nil => intro acc; rfl
    | cons t rest ih =>
        intro acc
        simp only [List.foldl_cons]
        rw [ih]
        cases h : stream.typeIndex t
        · rfl
        · simp
  rw [hgen]
  simp

/-- C2 (amended): when no event type reaches 10 events, `fitFullModel`
returns an empty `targetResults` map; but once the worker's gates pass
(non-empty observation windows, at least 50 events and at least 2 types)
`runAnalysis` posts its result with `modelFitted = true` regardless of
fit-target eligibility, so the claimed `modelFitted = false` is not what
the code reports. -/
theorem fitFullModel_empty_and_modelFitted (stream : EventStream)
    (windows : List ObservationWindow) (numBases : ℕ)
    (options : FitOptionsPartial) (tracks : List Track)
    (wopts : WorkerOptions)
    (hcounts : ∀ k, (computeCountsByType stream
      stream.typeNames.length).getD k 0 < 10)
    (hw : (coverageToWindows (computeCoverageStats tracks)
      (6 * 60 * 60 * 1000)).isEmpty = false)
    (hgate : ¬((buildEventStream tracks (coverageToWindows
        (computeCoverageStats tracks)
        (6 * 60 * 60 * 1000))).times.length < 50 ∨
      (buildEventStream tracks (coverageToWindows
        (computeCoverageStats tracks)
        (6 * 60 * 60 * 1000))).typeNames.length < 2)) :
    (fitFullModel stream windows numBases options).targetResults = [] ∧
    (runAnalysis tracks wopts).modelFitted = true := by
  constructor
  · have hfil : ((List.range stream.typeNames.length).filter fun k =>
        decide ((10 : ℚ) ≤ (computeCountsByType stream
          stream.typeNames.length).getD k 0)) = [] := by
      rw [List.filter_eq_nil_iff]
      intro k hk
      simp only [decide_eq_true_eq]
      exact not_le.mpr (hcounts k)
    simp only [fitFullModel]
    rw [hfil]
    rfl
  · simp only [runAnalysis]
    rw [if_neg (by rw [hw]; exact Bool.false_ne_true)]
    rw [if_neg hgate]

/-- Witness for C2 at the concrete 54-track input: 6 types of 9 events
each inside one UTC day pass the gates with zero eligible fit targets. -/
theorem fitFullModel_empty_and_modelFitted_witness :
    (∀ k, (computeCountsByType ceStream54
      ceStream54.typeNames.length).getD k 0 < 10) ∧
    ((coverageToWindows (computeCoverageStats ceTracks54)
      (6 * 60 * 60 * 1000)).isEmpty = false) ∧
    (¬((buildEventStream ceTracks54 (coverageToWindows
        (computeCoverageStats ceTracks54)
        (6 * 60 * 60 * 1000))).times.length < 50 ∨
      (buildEventStream ceTracks54 (coverageToWindows
        (computeCoverageStats ceTracks54)
        (6 * 60 * 60 * 1000))).typeNames.length < 2)) ∧
    ((fitFullModel ceStream54 ceWindows54 6 emptyFitOptions).targetResults =
      [] ∧
     (runAnalysis ceTracks54 emptyWorkerOptions).modelFitted = true) := by
  have hlist : computeCountsByType ceStream54 ceStream54.typeNames.length =
      [9, 9, 9, 9, 9, 9] := by with_unfolding_all decide
  have hc : ∀ k, (computeCountsByType ceStream54
      ceStream54.typeNames.length).getD k 0 < 10 := by
    intro k
    rw [hlist]
    by_cases hk : k < 6
    · interval_cases k <;> norm_num
    · rw [List.getD_eq_getElem?_getD,
        List.getElem?_eq_none (by simpa using le_of_not_lt hk)]
      norm_num
  refine ⟨hc, by with_unfolding_all decide, by with_unfolding_all decide,
    fitFullModel_empty_and_modelFitted ceStream54 ceWindows54 6
      emptyFitOptions ceTracks54 emptyWorkerOptions hc
      (by with_unfolding_all decide) (by with_unfolding_all decide)⟩

/-- Counterexample for C2 as stated: the 54-track input passes every gate
(54 events in one active day, 6 types), every per-type count is 9 (so no
type is fit-eligible), yet the posted analysis result has
`modelFitted = true`, not `false`. -/
theorem runAnalysis_claim_counterexample :
    computeCountsByType ceStream54 ceStream54.typeNames.length =
      [9, 9, 9, 9, 9, 9] ∧
    50 ≤ ceStream54.times.length ∧ 2 ≤ ceStream54.typeNames.length ∧
    (runAnalysis ceTracks54 emptyWorkerOptions).modelFitted = true := by
  refine ⟨by with_unfolding_all decide, by with_unfolding_all decide,
    by with_unfolding_all decide, ?_⟩
  simp only [runAnalysis]
  rw [if_neg (by with_unfolding_all decide : ¬((coverageToWindows
    (computeCoverageStats ceTracks54)
    (6 * 60 * 60 * 1000)).isEmpty = true))]
  rw [if_neg (by with_unfolding_all decide :
    ¬((buildEventStream ceTracks54 (coverageToWindows
      (computeCoverageStats ceTracks54)
      (6 * 60 * 60 * 1000))).times.length < 50 ∨
    (buildEventStream ceTracks54 (coverageToWindows
      (computeCoverageStats ceTracks54)
      (6 * 60 * 60 * 1000))).typeNames.length < 2))]

end LifeTracker
